import Mathlib

/-!
# Verification of the slot-simulation engine (stake-engine-math)

Shallow embedding of the simulation/win-evaluation core:
symbols with dynamic attribute bags, the settlement bookkeeping of
`GeneralGameState.update_final_win`, the tumble/cascade board refill,
forced-board rejection sampling, the ways/lines/scatter payout
evaluators, and the `template_cluster` spin state machine.

Currency amounts are modelled as exact rationals; Python's `round(x, 2)`
is modelled as round-half-to-even at two decimals over ℚ.
-/

namespace StakeEngine

/-- A dynamically attached attribute value: either a boolean flag or a
numeric value (Python attaches `wild: bool`, `multiplier: int`, ...). -/
inductive AttrVal where
  | b (v : Bool)
  | num (v : ℚ)
  deriving DecidableEq

/-- A board symbol: an immutable name plus a sparse bag of runtime
attributes (`src/calculations/symbol.py`, class `Symbol`). -/
structure Symbol where
  name : String
  attrs : List (String × AttrVal)
  deriving DecidableEq

/-- `Symbol.get_attribute`: `getattr(self, attribute, False)` — the value
when present, the boolean `False` otherwise. -/
def getAttribute (s : Symbol) (attr : String) : AttrVal :=
  (s.attrs.lookup attr).getD (AttrVal.b false)

/-- `Symbol.check_attribute(*args)`: true when some argument names an
attribute that exists and is not the boolean `False`
(`hasattr(self, arg) and (not isinstance(getattr(self, arg), bool) or
getattr(self, arg) is True)`). -/
def checkAttribute (s : Symbol) (args : List String) : Bool :=
  args.any fun arg =>
    match s.attrs.lookup arg with
    | some (AttrVal.b v) => v
    | some (AttrVal.num _) => true
    | none => false

/-- `setattr`: replace the binding when the key exists, otherwise append it. -/
def setAttr (attrs : List (String × AttrVal)) (k : String) (v : AttrVal) :
    List (String × AttrVal) :=
  if attrs.any (fun p => p.1 = k) then
    attrs.map (fun p => if p.1 = k then (k, v) else p)
  else attrs ++ [(k, v)]

/-- `Symbol.assign_attribute` for a single key/value pair. -/
def assignAttribute (s : Symbol) (k : String) (v : AttrVal) : Symbol :=
  { s with attrs := setAttr s.attrs k v }

/-- Python `int(...)` on an attribute value: truncation toward zero for
numbers, `int(True) = 1`, `int(False) = 0`. -/
def pyInt (v : AttrVal) : ℤ :=
  match v with
  | AttrVal.b true => 1
  | AttrVal.b false => 0
  | AttrVal.num q => if 0 ≤ q then ⌊q⌋ else ⌈q⌉

/-- Numeric reading of an attribute value (`True` compares/adds as 1). -/
def ratOf (v : AttrVal) : ℚ :=
  match v with
  | AttrVal.b true => 1
  | AttrVal.b false => 0
  | AttrVal.num q => q

/-- A symbol carrying `multiplier = 0` and `wild = False`, used as the
concrete instance for the attribute-truthiness theorem. -/
def multZeroSym : Symbol :=
  ⟨"M", [("multiplier", AttrVal.num 0), ("wild", AttrVal.b false)]⟩

/-- C10: for every `Symbol` and attribute name, `check_attribute` returns
`True` exactly when the attribute is present and its value is the boolean
`True` or any non-boolean (numeric) value; a numeric value `0` counts as
present, a boolean `False` does not; and `get_attribute` returns the
boolean `False` for an absent attribute. -/
theorem check_attribute_truthiness (s : Symbol) (a : String) :
    (checkAttribute s [a] = true ↔
      ∃ v, s.attrs.lookup a = some v ∧
        (v = AttrVal.b true ∨ ∃ q, v = AttrVal.num q)) ∧
    (s.attrs.lookup a = some (AttrVal.num 0) → checkAttribute s [a] = true) ∧
    (s.attrs.lookup a = some (AttrVal.b false) → checkAttribute s [a] = false) ∧
    (s.attrs.lookup a = none → getAttribute s a = AttrVal.b false) := by
  refine ⟨?_, ?_, ?_, ?_⟩
  · cases hl : s.attrs.lookup a with
    | none => simp [checkAttribute, hl]
    | some v =>
      cases v with
      | b w => cases w <;> simp [checkAttribute, hl]
      | num q => simp [checkAttribute, hl]
  · intro hl
    simp [checkAttribute, hl]
  · intro hl
    simp [checkAttribute, hl]
  · intro hl
    simp [getAttribute, hl]

/-- Concrete instance of `check_attribute_truthiness`: a symbol holding
`multiplier = 0` and `wild = False`. -/
theorem check_attribute_truthiness_witness :
    ((checkAttribute multZeroSym ["multiplier"] = true ↔
      ∃ v, multZeroSym.attrs.lookup "multiplier" = some v ∧
        (v = AttrVal.b true ∨ ∃ q, v = AttrVal.num q)) ∧
    (multZeroSym.attrs.lookup "multiplier" = some (AttrVal.num 0) →
      checkAttribute multZeroSym ["multiplier"] = true) ∧
    (multZeroSym.attrs.lookup "multiplier" = some (AttrVal.b false) →
      checkAttribute multZeroSym ["multiplier"] = false) ∧
    (multZeroSym.attrs.lookup "multiplier" = none →
      getAttribute multZeroSym "multiplier" = AttrVal.b false)) ∧
    checkAttribute multZeroSym ["multiplier"] = true ∧
    checkAttribute multZeroSym ["wild"] = false :=
  ⟨check_attribute_truthiness multZeroSym "multiplier", by decide, by decide⟩

/-! ## Settlement: `GeneralGameState.update_final_win` (C1)

`src/state/state.py`, lines 318–347.  Python's `round(x, 2)` is
round-half-to-even at two decimals, modelled over ℚ. -/

/-- Round-half-to-even to an integer (Python's built-in `round`). -/
def rhe (q : ℚ) : ℤ :=
  if q - ⌊q⌋ < 1 / 2 then ⌊q⌋
  else if 1 / 2 < q - ⌊q⌋ then ⌊q⌋ + 1
  else if ⌊q⌋ % 2 = 0 then ⌊q⌋ else ⌊q⌋ + 1

/-- Python `round(q, 2)` over exact rationals. -/
def round2 (q : ℚ) : ℚ :=
  (rhe (100 * q) : ℚ) / 100

theorem floor_le_rhe (q : ℚ) : ⌊q⌋ ≤ rhe q := by
  unfold rhe
  split_ifs <;> omega

theorem rhe_le_floor_add_one (q : ℚ) : rhe q ≤ ⌊q⌋ + 1 := by
  unfold rhe
  split_ifs <;> omega

theorem rhe_intCast (k : ℤ) : rhe (k : ℚ) = k := by
  unfold rhe
  have h : ⌊(k : ℚ)⌋ = k := Int.floor_intCast k
  rw [h]
  have h0 : (k : ℚ) - (k : ℚ) = 0 := sub_self _
  rw [h0]
  norm_num

theorem rhe_mono : Monotone rhe := by
  intro x y hxy
  have hf : ⌊x⌋ ≤ ⌊y⌋ := Int.floor_mono hxy
  by_cases hlt : ⌊x⌋ < ⌊y⌋
  · calc rhe x ≤ ⌊x⌋ + 1 := rhe_le_floor_add_one x
      _ ≤ ⌊y⌋ := by omega
      _ ≤ rhe y := floor_le_rhe y
  · have hfe : ⌊x⌋ = ⌊y⌋ := le_antisymm hf (by omega)
    have hsub : x - (⌊y⌋ : ℚ) ≤ y - (⌊y⌋ : ℚ) := by linarith
    unfold rhe
    rw [hfe]
    split_ifs <;> first | omega | linarith

theorem round2_mono : Monotone round2 := by
  intro x y hxy
  unfold round2
  have h : rhe (100 * x) ≤ rhe (100 * y) := rhe_mono (by linarith)
  have h2 : ((rhe (100 * x) : ℚ)) ≤ ((rhe (100 * y) : ℚ)) := by exact_mod_cast h
  linarith

theorem round2_idem (q : ℚ) : round2 (round2 q) = round2 q := by
  unfold round2
  have h : (100 : ℚ) * ((rhe (100 * q) : ℚ) / 100) = (rhe (100 * q) : ℚ) := by
    field_simp
  rw [h, rhe_intCast]

/-- The per-round win totals held by `WinManager` at settlement time. -/
structure WinTotals where
  runningBetWin : ℚ
  baseGameWins : ℚ
  freeGameWins : ℚ
  deriving DecidableEq

/-- The book/state fields written by `update_final_win`. -/
structure FinalOutcome where
  finalWin : ℚ
  payoutMultiplier : ℚ
  bookBaseGameWins : ℚ
  bookFreeGameWins : ℚ
  deriving DecidableEq

/-- `GeneralGameState.update_final_win`: cap and round the running round
win and the phase sums, write them to the book, then assert that the
phase sums and the running total agree (both asserts from the source);
an assertion failure aborts the simulation (`Except.error`). -/
def updateFinalWin (wm : WinTotals) (winCap : ℚ) : Except String FinalOutcome :=
  let final := round2 (min wm.runningBetWin winCap)
  let baseWin := round2 (min wm.baseGameWins winCap)
  let freeWin := round2 (min wm.freeGameWins winCap)
  let out : FinalOutcome := ⟨final, final, baseWin, freeWin⟩
  if min (round2 (wm.baseGameWins + wm.freeGameWins)) winCap
      = round2 (min wm.runningBetWin winCap) then
    if min (round2 (out.bookBaseGameWins + out.bookFreeGameWins)) winCap
        = min (round2 out.payoutMultiplier) (round2 winCap) then
      Except.ok out
    else Except.error "Base plus Free game payout mismatch"
  else Except.error "Base plus Free game payout mismatch"

/-- C1: whenever `update_final_win` returns normally, the capped
two-decimal-rounded sum of the phase wins equals the capped
two-decimal-rounded running round win, the book's payout multiplier is
set to `round(min(running_round_win, win_cap), 2)`, and any violation of
the assertion condition aborts with an error instead of returning. -/
theorem update_final_win_settlement (wm : WinTotals) (winCap : ℚ)
    (out : FinalOutcome) (h : updateFinalWin wm winCap = Except.ok out) :
    round2 (min (wm.baseGameWins + wm.freeGameWins) winCap)
      = round2 (min wm.runningBetWin winCap) ∧
    out.payoutMultiplier = round2 (min wm.runningBetWin winCap) ∧
    ∀ wm2 cap2,
      min (round2 (wm2.baseGameWins + wm2.freeGameWins)) cap2
        ≠ round2 (min wm2.runningBetWin cap2) →
      ∃ msg, updateFinalWin wm2 cap2 = Except.error msg := by
  simp only [updateFinalWin] at h
  split_ifs at h with h1 h2
  · have hout : (⟨round2 (min wm.runningBetWin winCap),
        round2 (min wm.runningBetWin winCap),
        round2 (min wm.baseGameWins winCap),
        round2 (min wm.freeGameWins winCap)⟩ : FinalOutcome) = out :=
      Except.ok.inj h
    refine ⟨?_, ?_, ?_⟩
    · -- the first assert guarantees the claim's equation
      set B := round2 (min wm.runningBetWin winCap) with hBdef
      have hRB : round2 B = B := by
        rw [hBdef]
        exact round2_idem _
      by_cases hxc : wm.baseGameWins + wm.freeGameWins ≤ winCap
      · rw [min_eq_left hxc]
        by_cases h2c : round2 (wm.baseGameWins + wm.freeGameWins) ≤ winCap
        · rw [min_eq_left h2c] at h1
          exact h1
        · push_neg at h2c
          rw [min_eq_right h2c.le] at h1
          -- h1 : winCap = B, hence round2 winCap = winCap, contradiction
          have hRcap : round2 winCap = winCap := by
            rw [h1]
            exact hRB
          have hle : round2 (wm.baseGameWins + wm.freeGameWins) ≤ winCap := by
            calc round2 (wm.baseGameWins + wm.freeGameWins)
                ≤ round2 winCap := round2_mono hxc
              _ = winCap := hRcap
          exact absurd hle (not_le.mpr h2c)
      · push_neg at hxc
        rw [min_eq_right hxc.le]
        by_cases h2c : round2 (wm.baseGameWins + wm.freeGameWins) ≤ winCap
        · rw [min_eq_left h2c] at h1
          have hup : round2 winCap ≤ B := by
            rw [← h1]
            exact round2_mono hxc.le
          have hBcap : B ≤ winCap := h1 ▸ h2c
          have hdown : B ≤ round2 winCap := by
            conv_lhs => rw [← hRB]
            exact round2_mono hBcap
          exact le_antisymm hup hdown
        · push_neg at h2c
          rw [min_eq_right h2c.le] at h1
          rw [h1]
          exact hRB
    · rw [← hout]
    · intro wm2 cap2 hne
      refine ⟨"Base plus Free game payout mismatch", ?_⟩
      simp only [updateFinalWin]
      split_ifs with hc1 hc2
      · exact absurd hc1 hne
      · rfl
      · rfl

/-- Concrete settlement run: base 1, free 2, running 3, cap 5000. -/
theorem update_final_win_settlement_witness :
    round2 (min ((1 : ℚ) + 2) 5000) = round2 (min (3 : ℚ) 5000) ∧
    (FinalOutcome.mk 3 3 1 2).payoutMultiplier = round2 (min (3 : ℚ) 5000) ∧
    ∀ wm2 cap2,
      min (round2 (wm2.baseGameWins + wm2.freeGameWins)) cap2
        ≠ round2 (min wm2.runningBetWin cap2) →
      ∃ msg, updateFinalWin wm2 cap2 = Except.error msg :=
  update_final_win_settlement ⟨3, 1, 2⟩ 5000 ⟨3, 3, 1, 2⟩ (by
    norm_num [updateFinalWin, round2, rhe])

/-! ## Configuration and the symbol factory (C9)

`GeneralGameState.create_symbol_map` (`src/state/state.py`) registers
every symbol named by the paytable or the special-symbols configuration;
`Board.create_symbol` (`src/calculations/board.py`) refuses any other
name and runs the registered per-name initializer functions. -/

/-- The slice of the game configuration used by the embedded core:
paytable `((kind, symbol), payout)`, special-symbol categories, paylines,
board dimensions, padding flag and win cap. -/
structure Config where
  numReels : ℕ
  numRows : List ℕ
  paytable : List ((ℕ × String) × ℚ)
  specialSymbols : List (String × List String)
  paylines : List (ℕ × List ℕ)
  includePadding : Bool
  winCap : ℚ
  deriving DecidableEq

/-- Paytable lookup: `config.paytable[(kind, symbol)]`. -/
def paytableLookup (cfg : Config) (kind : ℕ) (sym : String) : Option ℚ :=
  (cfg.paytable.lookup (kind, sym))

/-- `(kind, symbol) in config.paytable`. -/
def paytableMem (cfg : Config) (kind : ℕ) (sym : String) : Bool :=
  (paytableLookup cfg kind sym).isSome

/-- `config.special_symbols[category]` (empty when the category is absent). -/
def specialList (cfg : Config) (category : String) : List String :=
  ((cfg.specialSymbols.lookup category).getD [])

/-- `create_symbol_map`: every symbol name appearing in the paytable or in
any special-symbols category (membership in the storage's key set). -/
def registeredSymbols (cfg : Config) : List String :=
  cfg.paytable.map (fun p => p.1.2) ++ (cfg.specialSymbols.map Prod.snd).flatten

/-- `Symbol.__init__`: a fresh symbol gets a `True` flag for every
special-symbols category containing its name, plus the derived `special`
flag (the `is_paying`/`paytable` convenience fields are not used by the
embedded core). -/
def mkSymbol (cfg : Config) (name : String) : Symbol :=
  let isSpec : Bool := cfg.specialSymbols.any (fun p => name ∈ p.2)
  ⟨name,
    (cfg.specialSymbols.filterMap fun p =>
      if name ∈ p.2 then some (p.1, AttrVal.b true) else none)
      ++ [("special", AttrVal.b isSpec)]⟩

/-- `Board.create_symbol`: reject unregistered names, otherwise build a
fresh symbol and run every initializer registered for that name. -/
def createSymbol (cfg : Config) (specialFns : String → List (Symbol → Symbol))
    (name : String) : Except String Symbol :=
  if name ∉ registeredSymbols cfg then
    Except.error "Symbol is not registered in symbol storage"
  else
    Except.ok ((specialFns name).foldl (fun s f => f s) (mkSymbol cfg name))

/-- `create_symbol` lifted over a caller's board, mirroring that the
factory never touches the board. -/
def createSymbolOn (board : List (List Symbol)) (cfg : Config)
    (specialFns : String → List (Symbol → Symbol)) (name : String) :
    Except String (Symbol × List (List Symbol)) :=
  match createSymbol cfg specialFns name with
  | Except.error e => Except.error e
  | Except.ok s => Except.ok (s, board)

/-- C9: `create_symbol(name)` errors exactly when `name` is not among the
symbols registered from the paytable and special-symbols configuration;
for a registered name it returns the fresh symbol with that name after
folding every registered initializer over it; and the caller's board is
never modified (on error no board is produced, on success it is returned
untouched). -/
theorem create_symbol_registration (cfg : Config)
    (specialFns : String → List (Symbol → Symbol)) (name : String) :
    ((∃ msg, createSymbol cfg specialFns name = Except.error msg) ↔
      name ∉ registeredSymbols cfg) ∧
    (name ∈ registeredSymbols cfg →
      createSymbol cfg specialFns name =
        Except.ok ((specialFns name).foldl (fun s f => f s) (mkSymbol cfg name)) ∧
      (mkSymbol cfg name).name = name) ∧
    (∀ board r, createSymbolOn board cfg specialFns name = Except.ok r →
      r.2 = board) := by
  refine ⟨?_, ?_, ?_⟩
  · constructor
    · rintro ⟨msg, hmsg⟩
      intro hmem
      rw [createSymbol, if_neg (by simpa using hmem)] at hmsg
      exact Except.noConfusion hmsg
    · intro hmem
      exact ⟨_, by rw [createSymbol, if_pos hmem]⟩
  · intro hmem
    exact ⟨by rw [createSymbol, if_neg (by simpa using hmem)], rfl⟩
  · intro board r h
    rw [createSymbolOn] at h
    rcases hc : createSymbol cfg specialFns name with e | s
    · rw [hc] at h
      exact Except.noConfusion h
    · rw [hc] at h
      cases h
      rfl

/-- Concrete factory runs: `"H1"` is registered by the paytable and
built; `"Q"` is rejected. -/
theorem create_symbol_registration_witness :
    (("H1" ∈ registeredSymbols ⟨5, [3, 3, 3, 3, 3], [((5, "H1"), 70)],
        [("wild", ["W"])], [], false, 5000⟩) →
      createSymbol ⟨5, [3, 3, 3, 3, 3], [((5, "H1"), 70)],
          [("wild", ["W"])], [], false, 5000⟩ (fun _ => []) "H1" =
        Except.ok ((([] : List (Symbol → Symbol))).foldl (fun s f => f s)
          (mkSymbol ⟨5, [3, 3, 3, 3, 3], [((5, "H1"), 70)],
            [("wild", ["W"])], [], false, 5000⟩ "H1")) ∧
      (mkSymbol ⟨5, [3, 3, 3, 3, 3], [((5, "H1"), 70)],
        [("wild", ["W"])], [], false, 5000⟩ "H1").name = "H1") ∧
    ((∃ msg, createSymbol ⟨5, [3, 3, 3, 3, 3], [((5, "H1"), 70)],
        [("wild", ["W"])], [], false, 5000⟩ (fun _ => []) "Q" =
          Except.error msg) ↔
      "Q" ∉ registeredSymbols ⟨5, [3, 3, 3, 3, 3], [((5, "H1"), 70)],
        [("wild", ["W"])], [], false, 5000⟩) :=
  ⟨(create_symbol_registration ⟨5, [3, 3, 3, 3, 3], [((5, "H1"), 70)],
      [("wild", ["W"])], [], false, 5000⟩ (fun _ => []) "H1").2.1,
    (create_symbol_registration ⟨5, [3, 3, 3, 3, 3], [((5, "H1"), 70)],
      [("wild", ["W"])], [], false, 5000⟩ (fun _ => []) "Q").1⟩

/-! ## Tumble/cascade: `Tumble.tumble_board` (C4)

`src/calculations/tumble.py`, lines 34–94: count exploded cells per
reel, pull that many replacements from the strip above the stop
position, drop the exploded cells and check the reel length. -/

/-- Circular strip indexing `strip[i % len(strip)]`. -/
def stripGet (strip : List String) (i : ℤ) : String :=
  strip.getD (i % (strip.length : ℤ)).toNat ""

/-- Number of cells on a reel marked `explode`. -/
def explodingCount (reel : List Symbol) : ℕ :=
  (reel.filter (fun s => checkAttribute s ["explode"])).length

/-- The per-reel insertion loop of `tumble_board`: for each of the
`exploding` pulls, step the stop position one up the strip (circularly),
take the saved top-padding symbol on the first pull when padding is on,
otherwise create the strip symbol, and prepend it to the reel.  Symbols
other than the padding pull are also recorded (prepended) as the reel's
new symbols. -/
def insertLoop (cfg : Config) (fns : String → List (Symbol → Symbol))
    (strip : List String) (topSym : Symbol) :
    List ℕ → ℤ → List Symbol → List Symbol →
    Except String (ℤ × List Symbol × List Symbol)
  | [], pos, copyReel, newSyms => Except.ok (pos, copyReel, newSyms)
  | i :: rest, pos, copyReel, newSyms =>
    if strip.isEmpty then Except.error "modulo by zero: empty reel strip"
    else
      let pos2 := (pos - 1) % (strip.length : ℤ)
      if i = 0 ∧ cfg.includePadding then
        insertLoop cfg fns strip topSym rest pos2 (topSym :: copyReel) newSyms
      else
        match createSymbol cfg fns (stripGet strip pos2) with
        | Except.error e => Except.error e
        | Except.ok s =>
          insertLoop cfg fns strip topSym rest pos2 (s :: copyReel) (s :: newSyms)

/-- The tail of the per-reel tumble: drop the exploded cells, enforce the
configured row count, and recompute the top-padding symbol when padding
is on and a pull happened (the two `create_symbol(padding_name)` calls of
the source coincide in the pure embedding). -/
def finishReel (cfg : Config) (fns : String → List (Symbol → Symbol))
    (strip : List String) (expectedRows : ℕ) (topSym : Symbol)
    (exploding : ℕ) (pos2 : ℤ) (copyReel newSyms : List Symbol) :
    Except String (List Symbol × ℤ × List Symbol × Symbol) :=
  let filtered := copyReel.filter (fun s => !(checkAttribute s ["explode"]))
  if filtered.length ≠ expectedRows then
    Except.error "new reel length must match expected board size"
  else
    if cfg.includePadding ∧ 0 < exploding then
      match createSymbol cfg fns
          (stripGet strip ((pos2 - 1) % (strip.length : ℤ))) with
      | Except.error e => Except.error e
      | Except.ok t => Except.ok (filtered, pos2, t :: newSyms, t)
    else Except.ok (filtered, pos2, newSyms, topSym)

/-- One reel of `tumble_board`: run the insertion loop, then drop, check
and re-pad via `finishReel`. -/
def tumbleReel (cfg : Config) (fns : String → List (Symbol → Symbol))
    (strip : List String) (reel : List Symbol) (pos : ℤ) (topSym : Symbol)
    (expectedRows : ℕ) :
    Except String (List Symbol × ℤ × List Symbol × Symbol) :=
  match insertLoop cfg fns strip topSym (List.range (explodingCount reel))
      pos reel [] with
  | Except.error e => Except.error e
  | Except.ok (pos2, copyReel, newSyms) =>
    finishReel cfg fns strip expectedRows topSym (explodingCount reel)
      pos2 copyReel newSyms

/-- `tumble_board` over all reels, walking the board together with the
per-reel strips, stop positions, saved top symbols and configured row
counts (a shape mismatch would be an index error in the source). -/
def tumbleReels (cfg : Config) (fns : String → List (Symbol → Symbol)) :
    List (List Symbol) → List (List String) → List ℤ → List Symbol →
    List ℕ →
    Except String (List (List Symbol) × List ℤ × List Symbol × List (List Symbol))
  | [], _, _, _, _ => Except.ok ([], [], [], [])
  | reel :: reels, strip :: strips2, pos :: poss2, top :: tops2, rows :: rowss2 =>
    match tumbleReel cfg fns strip reel pos top rows with
    | Except.error e => Except.error e
    | Except.ok (newReel, pos2, newSyms, newTop) =>
      match tumbleReels cfg fns reels strips2 poss2 tops2 rowss2 with
      | Except.error e => Except.error e
      | Except.ok (bs, ps, ts, ns) =>
        Except.ok (newReel :: bs, pos2 :: ps, newTop :: ts, newSyms :: ns)
  | _, _, _, _, _ => Except.error "board shape mismatch"

/-- `Tumble.tumble_board`: tumble every reel against the configured row
counts. -/
def tumbleBoard (cfg : Config) (fns : String → List (Symbol → Symbol))
    (board : List (List Symbol)) (strips : List (List String))
    (poss : List ℤ) (tops : List Symbol) :
    Except String (List (List Symbol) × List ℤ × List Symbol × List (List Symbol)) :=
  tumbleReels cfg fns board strips poss tops cfg.numRows

theorem finishReel_ok_length (cfg : Config)
    (fns : String → List (Symbol → Symbol)) (strip : List String)
    (expectedRows : ℕ) (topSym : Symbol) (exploding : ℕ) (pos2 : ℤ)
    (copyReel newSyms : List Symbol) (r : List Symbol × ℤ × List Symbol × Symbol)
    (h : finishReel cfg fns strip expectedRows topSym exploding pos2 copyReel
      newSyms = Except.ok r) :
    r.1.length = expectedRows := by
  simp only [finishReel] at h
  split_ifs at h with hlen hpad
  · rcases hc : createSymbol cfg fns
        (stripGet strip ((pos2 - 1) % (strip.length : ℤ))) with e | t
    · rw [hc] at h
      exact Except.noConfusion h
    · rw [hc] at h
      cases h
      exact not_not.mp hlen
  · cases h
    exact not_not.mp hlen

theorem tumbleReel_ok_length (cfg : Config) (fns : String → List (Symbol → Symbol))
    (strip : List String) (reel : List Symbol) (pos : ℤ) (topSym : Symbol)
    (expectedRows : ℕ) (r : List Symbol × ℤ × List Symbol × Symbol)
    (h : tumbleReel cfg fns strip reel pos topSym expectedRows = Except.ok r) :
    r.1.length = expectedRows := by
  rw [tumbleReel] at h
  rcases hi : insertLoop cfg fns strip topSym (List.range (explodingCount reel))
      pos reel [] with e | ⟨pos2, copyReel, newSyms⟩
  · rw [hi] at h
    exact Except.noConfusion h
  · rw [hi] at h
    exact finishReel_ok_length cfg fns strip expectedRows topSym
      (explodingCount reel) pos2 copyReel newSyms r h

theorem tumbleReels_row_counts (cfg : Config)
    (fns : String → List (Symbol → Symbol)) :
    ∀ (bs : List (List Symbol)) (ss : List (List String)) (ps : List ℤ)
      (ts : List Symbol) (rs : List ℕ)
      (out : List (List Symbol) × List ℤ × List Symbol × List (List Symbol)),
      tumbleReels cfg fns bs ss ps ts rs = Except.ok out →
      ∀ i, i < out.1.length → (out.1.getD i []).length = rs.getD i 0 := by
  intro bs
  induction bs with
  | nil =>
    intro ss ps ts rs out h i hi
    rw [tumbleReels] at h
    cases h
    simp at hi
  | cons reel reels ih =>
    intro ss ps ts rs out h i hi
    rcases ss with _ | ⟨strip, strips2⟩
    · exact Except.noConfusion h
    rcases ps with _ | ⟨pos, poss2⟩
    · exact Except.noConfusion h
    rcases ts with _ | ⟨top, tops2⟩
    · exact Except.noConfusion h
    rcases rs with _ | ⟨rows, rowss2⟩
    · exact Except.noConfusion h
    rw [tumbleReels] at h
    rcases hr : tumbleReel cfg fns strip reel pos top rows with
      e | ⟨newReel, pos2, newSyms, newTop⟩
    · rw [hr] at h
      exact Except.noConfusion h
    · rw [hr] at h
      rcases hrec : tumbleReels cfg fns reels strips2 poss2 tops2 rowss2 with
        e2 | ⟨bs2, ps2, ts2, ns2⟩
      · rw [hrec] at h
        exact Except.noConfusion h
      · rw [hrec] at h
        cases h
        cases i with
        | zero =>
          simpa using tumbleReel_ok_length cfg fns strip reel pos top rows _ hr
        | succ j =>
          simp only [List.getD_cons_succ]
          exact ih strips2 poss2 tops2 rowss2 _ hrec j (by simpa using hi)

/-- C4: whenever `tumble_board` returns normally every reel of the new
board has exactly its configured row count of symbols; and whenever the
insertion/removal bookkeeping leaves a reel with the wrong length, the
reel computation aborts with an error instead of continuing. -/
theorem tumble_board_row_invariant (cfg : Config)
    (fns : String → List (Symbol → Symbol)) (board : List (List Symbol))
    (strips : List (List String)) (poss : List ℤ) (tops : List Symbol)
    (out : List (List Symbol) × List ℤ × List Symbol × List (List Symbol))
    (h : tumbleBoard cfg fns board strips poss tops = Except.ok out) :
    (∀ i, i < out.1.length → (out.1.getD i []).length = cfg.numRows.getD i 0) ∧
    (∀ (strip : List String) (reel : List Symbol) (pos pos2 : ℤ)
        (topSym : Symbol) (rows : ℕ) (copyReel newSyms : List Symbol),
      insertLoop cfg fns strip topSym (List.range (explodingCount reel))
          pos reel [] = Except.ok (pos2, copyReel, newSyms) →
      (copyReel.filter (fun s => !(checkAttribute s ["explode"]))).length ≠ rows →
      ∃ msg, tumbleReel cfg fns strip reel pos topSym rows = Except.error msg) := by
  constructor
  · exact tumbleReels_row_counts cfg fns board strips poss tops cfg.numRows out h
  · intro strip reel pos pos2 topSym rows copyReel newSyms hloop hbad
    refine ⟨"new reel length must match expected board size", ?_⟩
    rw [tumbleReel, hloop]
    exact if_pos hbad

/-- A one-reel, two-row configuration used as the concrete tumble input. -/
def cfgTumble : Config :=
  ⟨1, [2],
    [((3, "A"), 1), ((3, "B"), 1), ((3, "C"), 1), ((2, "H2"), 1), ((2, "H1"), 1)],
    [], [], false, 5000⟩

/-- Concrete tumble: one exploded cell is replaced from the strip above
and the reel keeps its configured two rows. -/
theorem tumble_board_row_invariant_witness :
    (∀ i, i < ([[mkSymbol cfgTumble "A", mkSymbol cfgTumble "H2"]] :
        List (List Symbol)).length →
      (([[mkSymbol cfgTumble "A", mkSymbol cfgTumble "H2"]] :
          List (List Symbol)).getD i []).length = cfgTumble.numRows.getD i 0) ∧
    (∀ (strip : List String) (reel : List Symbol) (pos pos2 : ℤ)
        (topSym : Symbol) (rows : ℕ) (copyReel newSyms : List Symbol),
      insertLoop cfgTumble (fun _ => []) strip topSym
          (List.range (explodingCount reel)) pos reel []
        = Except.ok (pos2, copyReel, newSyms) →
      (copyReel.filter (fun s => !(checkAttribute s ["explode"]))).length ≠ rows →
      ∃ msg, tumbleReel cfgTumble (fun _ => []) strip reel pos topSym rows
        = Except.error msg) :=
  tumble_board_row_invariant cfgTumble (fun _ => [])
    [[⟨"H1", [("explode", AttrVal.b true)]⟩, mkSymbol cfgTumble "H2"]]
    [["A", "B", "C"]] [1] [⟨"T", []⟩]
    ([[mkSymbol cfgTumble "A", mkSymbol cfgTumble "H2"]], [0], [⟨"T", []⟩],
      [[mkSymbol cfgTumble "A"]])
    (by rfl)

/-! ## Forced boards: `Board.force_special_board` (C5)

`src/calculations/board.py`, lines 331–356: draw a candidate forced
board (`_force_special_board`), accept it only when the realized
on-board count of the forced type equals the request, otherwise redraw
from scratch. -/

/-- Python truthiness of an attribute value (`if sym.special:`). -/
def truthy (v : AttrVal) : Bool :=
  match v with
  | AttrVal.b v => v
  | AttrVal.num q => decide (q ≠ 0)

/-- The `special` flag a fresh symbol receives in `Symbol.__init__`. -/
def symSpecial (s : Symbol) : Bool :=
  truthy (getAttribute s "special")

/-- `count_special_symbols(t)` after a forced draw: the board scan of
`force_board_from_reelstrips` appends one position per match of a special
cell's name in `config.special_symbols[t]`. -/
def countSpecialOnBoard (cfg : Config) (board : List (List Symbol))
    (t : String) : ℕ :=
  (board.flatten.map
    (fun s => if symSpecial s then (specialList cfg t).count s.name else 0)).sum

/-- `count_symbols_on_board(name)`: case-insensitive name count. -/
def countSymbolsOnBoard (board : List (List Symbol)) (name : String) : ℕ :=
  (board.flatten.filter (fun s => s.name.toUpper = name.toUpper)).length

/-- The realized count checked by the acceptance test of
`force_special_board` (by special-symbol category when the criteria names
one, by symbol name otherwise). -/
def realizedCount (cfg : Config) (board : List (List Symbol))
    (criteria : String) : ℕ :=
  if (cfg.specialSymbols.lookup criteria).isSome then
    countSpecialOnBoard cfg board criteria
  else countSymbolsOnBoard board criteria

/-- `force_special_board`: keep drawing whole candidate boards (the
stream `draws` abstracts the RNG-driven `_force_special_board` results,
one per attempt) until the realized count matches the request; `fuel`
bounds the unbounded `while True` of the source. -/
def forceSpecialBoard (cfg : Config) (draws : ℕ → List (List Symbol))
    (forceCriteria : String) (numForceSyms : ℕ) :
    ℕ → ℕ → Option (List (List Symbol))
  | 0, _ => none
  | fuel + 1, attempt =>
    let b := draws attempt
    if (cfg.specialSymbols.lookup forceCriteria).isSome ∧
        countSpecialOnBoard cfg b forceCriteria = numForceSyms then
      some b
    else if ¬ (cfg.specialSymbols.lookup forceCriteria).isSome ∧
        countSymbolsOnBoard b forceCriteria = numForceSyms then
      some b
    else forceSpecialBoard cfg draws forceCriteria numForceSyms fuel (attempt + 1)

/-- C5: whenever `force_special_board` returns a board, the realized
on-board count of the forced type equals the request exactly, and the
returned board is a whole fresh draw: every earlier candidate draw was
rejected precisely because its realized count differed (rejection
sampling, never repair). -/
theorem force_special_board_exact_count (cfg : Config)
    (draws : ℕ → List (List Symbol)) (criteria : String) (numForceSyms : ℕ) :
    ∀ fuel attempt b,
      forceSpecialBoard cfg draws criteria numForceSyms fuel attempt = some b →
      realizedCount cfg b criteria = numForceSyms ∧
      ∃ k, attempt ≤ k ∧ b = draws k ∧
        ∀ j, attempt ≤ j → j < k →
          realizedCount cfg (draws j) criteria ≠ numForceSyms := by
  intro fuel
  induction fuel with
  | zero =>
    intro attempt b h
    exact Option.noConfusion h
  | succ n ih =>
    intro attempt b h
    rw [forceSpecialBoard] at h
    split_ifs at h with h1 h2
    · cases h
      refine ⟨?_, attempt, le_refl _, rfl, ?_⟩
      · rw [realizedCount, if_pos h1.1]
        exact h1.2
      · intro j hj1 hj2
        omega
    · cases h
      refine ⟨?_, attempt, le_refl _, rfl, ?_⟩
      · rw [realizedCount, if_neg (by simpa using h2.1)]
        exact h2.2
      · intro j hj1 hj2
        omega
    · obtain ⟨hcount, k, hk1, hk2, hk3⟩ := ih (attempt + 1) b h
      refine ⟨hcount, k, by omega, hk2, ?_⟩
      intro j hj1 hj2
      rcases eq_or_lt_of_le hj1 with hj | hj
      · subst hj
        rw [realizedCount]
        by_cases hs : (cfg.specialSymbols.lookup criteria).isSome
        · rw [if_pos hs]
          intro hc
          exact h1 ⟨hs, hc⟩
        · rw [if_neg hs]
          intro hc
          exact h2 ⟨hs, hc⟩
      · exact hk3 j (by omega) hj2

/-- A scatter category and two candidate draws: the first has two
scatters and is rejected, the second has exactly one and is accepted. -/
def cfgForce : Config :=
  ⟨1, [2], [((2, "H1"), 5)], [("scatter", ["S"])], [], false, 5000⟩

/-- The abstract draw stream for the concrete forced-board run. -/
def forceDraws : ℕ → List (List Symbol) :=
  fun n =>
    if n = 0 then [[mkSymbol cfgForce "S", mkSymbol cfgForce "S"]]
    else [[mkSymbol cfgForce "S", mkSymbol cfgForce "H1"]]

/-- Concrete forced draw: requesting one scatter rejects the two-scatter
draw and accepts the next one. -/
theorem force_special_board_exact_count_witness :
    realizedCount cfgForce [[mkSymbol cfgForce "S", mkSymbol cfgForce "H1"]]
        "scatter" = 1 ∧
    ∃ k, 0 ≤ k ∧
      ([[mkSymbol cfgForce "S", mkSymbol cfgForce "H1"]] :
        List (List Symbol)) = forceDraws k ∧
      ∀ j, 0 ≤ j → j < k →
        realizedCount cfgForce (forceDraws j) "scatter" ≠ 1 :=
  force_special_board_exact_count cfgForce forceDraws "scatter" 1 5 0
    [[mkSymbol cfgForce "S", mkSymbol cfgForce "H1"]] (by rfl)

/-! ## Scatter pay: `Scatter.get_scatterpay_wins` (C7)

`src/calculations/scatter.py`, lines 96–159: group cells by name (wilds
collected separately and added to every group), pay by total count, sum
multiplier attributes floored at 1, and pick overlay positions nearest
the board centre. -/

/-- Board cells with their `(reel, row)` positions, in scan order. -/
def boardCells (board : List (List Symbol)) : List ((ℕ × ℕ) × Symbol) :=
  (board.enum.map (fun p => p.2.enum.map (fun q => ((p.1, q.1), q.2)))).flatten

/-- Positions of all cells carrying a given name, in scan order. -/
def positionsOf (board : List (List Symbol)) (name : String) : List (ℕ × ℕ) :=
  ((boardCells board).filter (fun p => p.2.name = name)).map (fun p => p.1)

/-- Positions of all wild cells (name membership in
`config.special_symbols[wild_key]`, as in the source). -/
def wildCellPositions (cfg : Config) (board : List (List Symbol))
    (wildKey : String) : List (ℕ × ℕ) :=
  ((boardCells board).filter
    (fun p => p.2.name ∈ specialList cfg wildKey)).map (fun p => p.1)

/-- Helper for `firstDedup`: drop names already seen. -/
def firstDedupAux : List String → List String → List String
  | [], _ => []
  | a :: l, seen =>
    if a ∈ seen then firstDedupAux l seen else a :: firstDedupAux l (a :: seen)

/-- Keep the first occurrence of every name, preserving scan order
(Python dict insertion order). -/
def firstDedup (l : List String) : List String :=
  firstDedupAux l []

/-- The non-wild symbol names grouped by the scatter evaluator, in first
appearance order. -/
def nonWildNames (cfg : Config) (board : List (List Symbol))
    (wildKey : String) : List String :=
  firstDedup (((board.flatten.filter
    (fun s => s.name ∉ specialList cfg wildKey)).map (fun s => s.name)))

/-- A symbol group's positions after the wild positions are shared into
it. -/
def scatterGroup (cfg : Config) (board : List (List Symbol))
    (wildKey : String) (sym : String) : List (ℕ × ℕ) :=
  positionsOf board sym ++ wildCellPositions cfg board wildKey

/-- Cell access `board[reel][row]`. -/
def cellAt (board : List (List Symbol)) (p : ℕ × ℕ) : Symbol :=
  (board.getD p.1 []).getD p.2 ⟨"", []⟩

/-- `Scatter.get_central_scatter_position`: the occupied cell nearest the
board's geometric centre whose row is not already used for an overlay. -/
def getCentralScatterPosition (rowsForOverlay : List ℕ)
    (winningPositions : List (ℕ × ℕ)) (maxReels maxRows : ℕ) : ℕ × ℕ :=
  (winningPositions.foldl
    (fun st pos =>
      let dist : ℚ := ((pos.1 : ℚ) - (maxReels : ℚ) / 2) ^ 2 +
        ((pos.2 : ℚ) - (maxRows : ℚ) / 2) ^ 2
      if dist < st.1 ∧ pos.2 ∉ rowsForOverlay ∧
          rowsForOverlay.length < maxReels then
        (dist, pos.1, pos.2)
      else st)
    ((100 : ℚ), 0, 0)).2

/-- A 25-entry scatter paytable with wild category, for the concrete
all-`H1` board. -/
def cfgScatter : Config :=
  ⟨5, [5, 5, 5, 5, 5], [((25, "H1"), 80)], [("wild", ["W"])], [], false, 5000⟩

/-- The 5×5 board holding `H1` in every cell. -/
def boardScatter : List (List Symbol) :=
  List.replicate 5 (List.replicate 5 (mkSymbol cfgScatter "H1"))

/-- One recorded scatter win (`symbol`, `win`, `positions` and the
`meta` fields of the source's win dictionary). -/
structure ScatterWin where
  symbol : String
  win : ℚ
  positions : List (ℕ × ℕ)
  globalMult : ℚ
  clusterMult : ℤ
  winWithoutMult : ℚ
  overlay : ℕ × ℕ
  deriving DecidableEq

/-- The multiplier sum of a group: `int(get_attribute)` over the cells
whose multiplier attribute checks. -/
def groupMultSum (board : List (List Symbol)) (multKey : String)
    (group : List (ℕ × ℕ)) : ℤ :=
  (group.map (fun p =>
    if checkAttribute (cellAt board p) [multKey] then
      pyInt (getAttribute (cellAt board p) multKey)
    else 0)).sum

/-- The grouped-symbol loop of `get_scatterpay_wins`, threading the
overlay row bookkeeping through the groups in order. -/
def scatterGo (cfg : Config) (board : List (List Symbol)) (wildKey : String)
    (multKey : String) (globalMultiplier : ℚ) :
    List String → List ℕ → ℚ × List ScatterWin
  | [], _ => (0, [])
  | sym :: rest, rowsForOverlay =>
    let group := scatterGroup cfg board wildKey sym
    match paytableLookup cfg group.length sym with
    | none => scatterGo cfg board wildKey multKey globalMultiplier rest rowsForOverlay
    | some pay =>
      let symbolMult := max (groupMultSum board multKey group) 1
      let overlay := getCentralScatterPosition rowsForOverlay group
        board.length (board.headD []).length
      let win := pay * globalMultiplier * (symbolMult : ℚ)
      let res := scatterGo cfg board wildKey multKey globalMultiplier rest
        (rowsForOverlay ++ [overlay.2])
      (win + res.1,
        ⟨sym, win, group, globalMultiplier, symbolMult, pay, overlay⟩ :: res.2)

/-- `Scatter.get_scatterpay_wins` (the `explode` marking, which does not
feed back into the returned win data, is not modelled). -/
def getScatterpayWins (cfg : Config) (board : List (List Symbol))
    (globalMultiplier : ℚ) (wildKey : String := "wild")
    (multKey : String := "multiplier") : ℚ × List ScatterWin :=
  scatterGo cfg board wildKey multKey globalMultiplier
    (nonWildNames cfg board wildKey) []

theorem scatterGo_wins_spec (cfg : Config) (board : List (List Symbol))
    (wildKey multKey : String) (g : ℚ) :
    ∀ (names : List String) (rows : List ℕ),
      (scatterGo cfg board wildKey multKey g names rows).1 =
        ((scatterGo cfg board wildKey multKey g names rows).2.map
          ScatterWin.win).sum ∧
      ∀ w ∈ (scatterGo cfg board wildKey multKey g names rows).2,
        w.positions = scatterGroup cfg board wildKey w.symbol ∧
        paytableLookup cfg w.positions.length w.symbol = some w.winWithoutMult ∧
        w.clusterMult = max (groupMultSum board multKey w.positions) 1 ∧
        w.win = w.winWithoutMult * g * (w.clusterMult : ℚ) := by
  intro names
  induction names with
  | nil =>
    intro rows
    constructor
    · simp [scatterGo]
    · intro w hw
      simp [scatterGo] at hw
  | cons sym rest ih =>
    intro rows
    simp only [scatterGo]
    rcases hp : paytableLookup cfg
        (scatterGroup cfg board wildKey sym).length sym with _ | pay
    · simp only [hp]
      exact ih rows
    · simp only [hp]
      constructor
      · simp only [List.map_cons, List.sum_cons]
        rw [(ih _).1]
      · intro w hw
        rcases List.mem_cons.mp hw with hw | hw
        · subst hw
          exact ⟨rfl, hp, rfl, rfl⟩
        · exact (ih _).2 w hw

/-- C7: wild positions are shared into every non-wild group before
counting (group size = own count + wild count, for every group and in
every recorded win); a group pays only when its total count has a
paytable entry; the applied multiplier is the groups's summed multiplier
attributes floored at 1, multiplying the paytable amount together with
the global multiplier; and the 25-cell all-`H1` board with
`paytable[(25,"H1")] = 80` pays exactly `totalWin = 80`. -/
theorem scatterpay_wilds_and_counts (cfg : Config)
    (board : List (List Symbol)) (wildKey multKey : String) (g : ℚ) :
    (∀ sym, (scatterGroup cfg board wildKey sym).length =
      (positionsOf board sym).length +
        (wildCellPositions cfg board wildKey).length) ∧
    ((getScatterpayWins cfg board g wildKey multKey).1 =
      ((getScatterpayWins cfg board g wildKey multKey).2.map
        ScatterWin.win).sum) ∧
    (∀ w ∈ (getScatterpayWins cfg board g wildKey multKey).2,
      w.positions.length = (positionsOf board w.symbol).length +
        (wildCellPositions cfg board wildKey).length ∧
      paytableLookup cfg w.positions.length w.symbol = some w.winWithoutMult ∧
      w.clusterMult = max (groupMultSum board multKey w.positions) 1 ∧
      w.win = w.winWithoutMult * g * (w.clusterMult : ℚ)) ∧
    (getScatterpayWins cfgScatter boardScatter 1).1 = 80 := by
  refine ⟨?_, ?_, ?_, ?_⟩
  · intro sym
    simp [scatterGroup]
  · exact (scatterGo_wins_spec cfg board wildKey multKey g _ []).1
  · intro w hw
    obtain ⟨h1, h2, h3, h4⟩ :=
      (scatterGo_wins_spec cfg board wildKey multKey g _ []).2 w hw
    refine ⟨?_, h2, h3, h4⟩
    rw [h1]
    simp [scatterGroup]
  · rw [getScatterpayWins,
      show nonWildNames cfgScatter boardScatter "wild" = ["H1"] from by decide]
    simp only [scatterGo]
    rw [show paytableLookup cfgScatter
        (scatterGroup cfgScatter boardScatter "wild" "H1").length "H1"
        = some 80 from rfl]
    rw [show groupMultSum boardScatter "multiplier"
        (scatterGroup cfgScatter boardScatter "wild" "H1") = 0 from by decide]
    norm_num

/-- A single-cell scatter configuration for the concrete win record. -/
def cfgScatter1 : Config :=
  ⟨1, [1], [((1, "H1"), 5)], [("wild", ["W"])], [], false, 5000⟩

/-- Its one-cell board. -/
def boardScatter1 : List (List Symbol) := [[mkSymbol cfgScatter1 "H1"]]

/-- The scatter win the evaluator records on `boardScatter1`. -/
def scatterWinEx : ScatterWin := ⟨"H1", 5, [(0, 0)], 1, 1, 5, (0, 0)⟩

/-- Concrete scatter run: the recorded `H1` win on the one-cell board
satisfies the group/paytable/multiplier properties. -/
theorem scatterpay_wilds_and_counts_witness :
    scatterWinEx ∈ (getScatterpayWins cfgScatter1 boardScatter1 1).2 ∧
    (scatterWinEx.positions.length =
        (positionsOf boardScatter1 scatterWinEx.symbol).length +
        (wildCellPositions cfgScatter1 boardScatter1 "wild").length ∧
      paytableLookup cfgScatter1 scatterWinEx.positions.length
          scatterWinEx.symbol = some scatterWinEx.winWithoutMult ∧
      scatterWinEx.clusterMult =
        max (groupMultSum boardScatter1 "multiplier" scatterWinEx.positions) 1 ∧
      scatterWinEx.win =
        scatterWinEx.winWithoutMult * 1 * (scatterWinEx.clusterMult : ℚ)) := by
  have hwins : (getScatterpayWins cfgScatter1 boardScatter1 1).2 =
      [scatterWinEx] := by
    have hnames : nonWildNames cfgScatter1 boardScatter1 "wild" = ["H1"] := by
      decide
    have hgroup : scatterGroup cfgScatter1 boardScatter1 "wild" "H1" =
        [(0, 0)] := by decide
    have hmult : groupMultSum boardScatter1 "multiplier" [(0, 0)] = 0 := by
      decide
    have hover : getCentralScatterPosition [] [(0, 0)] boardScatter1.length
        (boardScatter1.headD []).length = (0, 0) := by
      norm_num [getCentralScatterPosition, boardScatter1]
    rw [getScatterpayWins, hnames]
    simp only [scatterGo, hgroup]
    rw [show paytableLookup cfgScatter1 ([((0 : ℕ), (0 : ℕ))].length) "H1"
        = some 5 from rfl]
    simp only [hmult, hover, scatterWinEx]
    norm_num
  have hw : scatterWinEx ∈ (getScatterpayWins cfgScatter1 boardScatter1 1).2 := by
    rw [hwins]
    exact List.mem_singleton.mpr rfl
  exact ⟨hw, (scatterpay_wilds_and_counts cfgScatter1 boardScatter1 "wild"
    "multiplier" 1).2.2.1 scatterWinEx hw⟩

/-! ## Ways pay: `Ways.get_ways_data` (C3)

`src/calculations/ways.py`, lines 77–142: for every symbol present on
reel 0, extend over reels while a matching symbol or a wild is present,
multiplying `ways` by (matching count + wild count + multiplier
enhancement) per contributing reel.  The recorded win amount applies the
global multiplier, but `totalWin` accumulates the pre-multiplier amount
(`return_data["totalWin"] += win`). -/

/-- Modelled from the spec: `apply_mult` (strategy `"global"`) from
`src/wins/multiplier_strategy.py` is absent from the sources; per §4.2
the global strategy multiplies the win amount by the global multiplier
and reports that multiplier. -/
def applyMultGlobal (globalMultiplier : ℚ) (winAmount : ℚ) : ℚ × ℚ :=
  (winAmount * globalMultiplier, globalMultiplier)

/-- Symbol names on reel 0, in first appearance order (the keys of
`potential_wins`). -/
def reelZeroNames (board : List (List Symbol)) : List String :=
  firstDedup ((board.headD []).map (fun s => s.name))

/-- Positions of a symbol name on one reel (`potential_wins[name][r]`). -/
def reelPositionsOf (board : List (List Symbol)) (name : String) (r : ℕ) :
    List (ℕ × ℕ) :=
  (board.getD r []).enum.filterMap
    (fun q => if q.2.name = name then some (r, q.1) else none)

/-- Wild positions on one reel (`wilds[r]`, name membership in
`config.special_symbols[wild_key]`). -/
def reelWilds (cfg : Config) (board : List (List Symbol)) (wildKey : String)
    (r : ℕ) : List (ℕ × ℕ) :=
  (board.getD r []).enum.filterMap
    (fun q => if q.2.name ∈ specialList cfg wildKey then some (r, q.1) else none)

/-- `multiplier_enhance` for one reel: the summed multiplier attributes
greater than 1 over the given cells. -/
def multiplierEnhance (board : List (List Symbol)) (multKey : String)
    (positions : List (ℕ × ℕ)) : ℚ :=
  (positions.map (fun p =>
    if checkAttribute (cellAt board p) [multKey] ∧
        1 < ratOf (getAttribute (cellAt board p) multKey) then
      ratOf (getAttribute (cellAt board p) multKey)
    else 0)).sum

/-- The `(kind, ways, cumulative_symbol_multiplier)` accumulator of the
per-symbol reel walk. -/
structure WaysAcc where
  kind : ℕ
  ways : ℚ
  cumMult : ℚ
  deriving DecidableEq

/-- The combined symbol-and-wild count plus enhancement of one reel (the
factor multiplied into `ways`). -/
def reelFactor (cfg : Config) (board : List (List Symbol))
    (wildKey multKey : String) (name : String) (r : ℕ) : ℚ :=
  ((reelPositionsOf board name r).length : ℚ) +
    ((reelWilds cfg board wildKey r).length : ℚ) +
    multiplierEnhance board multKey
      (reelPositionsOf board name r ++ reelWilds cfg board wildKey r)

/-- The reel walk of `get_ways_data`: extend while the reel holds a
matching symbol or a wild, multiplying `ways` by the reel factor;
break at the first reel with neither. -/
def waysFold (cfg : Config) (board : List (List Symbol))
    (wildKey multKey : String) (name : String) :
    List ℕ → WaysAcc → WaysAcc
  | [], acc => acc
  | r :: rest, acc =>
    if 0 < (reelPositionsOf board name r).length ∨
        0 < (reelWilds cfg board wildKey r).length then
      waysFold cfg board wildKey multKey name rest
        ⟨acc.kind + 1, acc.ways * reelFactor cfg board wildKey multKey name r,
          acc.cumMult + multiplierEnhance board multKey
            (reelPositionsOf board name r ++ reelWilds cfg board wildKey r)⟩
    else acc

/-- One recorded ways win (`symbol`, `kind`, `win`, `positions` plus the
`meta` fields). -/
structure WaysWin where
  symbol : String
  kind : ℕ
  win : ℚ
  positions : List (ℕ × ℕ)
  ways : ℚ
  globalMultiplier : ℚ
  winWithoutMult : ℚ
  symbolMult : ℚ
  deriving DecidableEq

/-- The per-symbol loop of `get_ways_data`; `g` is the global multiplier
consumed by the spec-modelled `apply_mult`. -/
def waysGo (cfg : Config) (board : List (List Symbol))
    (wildKey multKey : String) (g : ℚ) : List String → ℚ × List WaysWin
  | [] => (0, [])
  | name :: rest =>
    let acc := waysFold cfg board wildKey multKey name
      (List.range board.length) ⟨0, 1, 0⟩
    match paytableLookup cfg acc.kind name with
    | none => waysGo cfg board wildKey multKey g rest
    | some pay =>
      let positions := ((List.range acc.kind).map
        (fun r => reelPositionsOf board name r ++
          reelWilds cfg board wildKey r)).flatten
      let win := pay * acc.ways
      let am := applyMultGlobal g win
      let res := waysGo cfg board wildKey multKey g rest
      (win + res.1,
        ⟨name, acc.kind, am.1, positions, acc.ways, am.2, win, acc.cumMult⟩
          :: res.2)

/-- `Ways.get_ways_data` (global multiplier `g` for the spec-modelled
`apply_mult`). -/
def getWaysData (cfg : Config) (board : List (List Symbol)) (g : ℚ)
    (wildKey : String := "wild") (multKey : String := "multiplier") :
    ℚ × List WaysWin :=
  waysGo cfg board wildKey multKey g (reelZeroNames board)

/-- The contributing prefix of the reel walk: reels up to the first with
neither a matching symbol nor a wild. -/
def contribPrefix (cfg : Config) (board : List (List Symbol))
    (wildKey : String) (name : String) (rl : List ℕ) : List ℕ :=
  rl.takeWhile (fun r => decide (0 < (reelPositionsOf board name r).length ∨
    0 < (reelWilds cfg board wildKey r).length))

theorem waysFold_spec (cfg : Config) (board : List (List Symbol))
    (wildKey multKey : String) (name : String) :
    ∀ (rl : List ℕ) (acc : WaysAcc),
      waysFold cfg board wildKey multKey name rl acc =
        ⟨acc.kind + (contribPrefix cfg board wildKey name rl).length,
          acc.ways * ((contribPrefix cfg board wildKey name rl).map
            (reelFactor cfg board wildKey multKey name)).prod,
          acc.cumMult + ((contribPrefix cfg board wildKey name rl).map
            (fun r => multiplierEnhance board multKey
              (reelPositionsOf board name r ++
                reelWilds cfg board wildKey r))).sum⟩ := by
  intro rl
  induction rl with
  | nil =>
    intro acc
    simp [waysFold, contribPrefix]
  | cons r rest ih =>
    intro acc
    rw [waysFold]
    by_cases hc : 0 < (reelPositionsOf board name r).length ∨
        0 < (reelWilds cfg board wildKey r).length
    · rw [if_pos hc, ih]
      have hp : contribPrefix cfg board wildKey name (r :: rest) =
          r :: contribPrefix cfg board wildKey name rest := by
        rw [contribPrefix, List.takeWhile_cons, if_pos (by simpa using hc)]
        rfl
      rw [hp]
      simp only [List.length_cons, List.map_cons, List.prod_cons,
        List.sum_cons, WaysAcc.mk.injEq]
      refine ⟨by omega, by ring, by ring⟩
    · rw [if_neg hc]
      have hp : contribPrefix cfg board wildKey name (r :: rest) = [] := by
        rw [contribPrefix, List.takeWhile_cons, if_neg (by simpa using hc)]
      rw [hp]
      cases acc
      simp

theorem waysGo_spec (cfg : Config) (board : List (List Symbol))
    (wildKey multKey : String) (g : ℚ) :
    ∀ names : List String,
      (waysGo cfg board wildKey multKey g names).1 =
        ((waysGo cfg board wildKey multKey g names).2.map
          WaysWin.winWithoutMult).sum ∧
      ∀ w ∈ (waysGo cfg board wildKey multKey g names).2,
        ∃ pay, paytableLookup cfg w.kind w.symbol = some pay ∧
          w.winWithoutMult = pay * w.ways ∧
          w.win = w.winWithoutMult * g ∧
          w.ways = ((contribPrefix cfg board wildKey w.symbol
              (List.range board.length)).map
            (reelFactor cfg board wildKey multKey w.symbol)).prod ∧
          w.kind = (contribPrefix cfg board wildKey w.symbol
            (List.range board.length)).length := by
  intro names
  induction names with
  | nil =>
    refine ⟨by simp [waysGo], ?_⟩
    intro w hw
    simp [waysGo] at hw
  | cons name rest ih =>
    simp only [waysGo]
    rcases hp : paytableLookup cfg
        (waysFold cfg board wildKey multKey name
          (List.range board.length) ⟨0, 1, 0⟩).kind name with _ | pay
    · simp only [hp]
      exact ih
    · simp only [hp, applyMultGlobal]
      have hacc := waysFold_spec cfg board wildKey multKey name
        (List.range board.length) ⟨0, 1, 0⟩
      constructor
      · simp only [List.map_cons, List.sum_cons]
        rw [ih.1]
      · intro w hw
        rcases List.mem_cons.mp hw with hw | hw
        · subst hw
          refine ⟨pay, ?_, rfl, rfl, ?_, ?_⟩
          · exact hp
          · show (waysFold cfg board wildKey multKey name
              (List.range board.length) ⟨0, 1, 0⟩).ways = _
            rw [hacc]
            simp
          · show (waysFold cfg board wildKey multKey name
              (List.range board.length) ⟨0, 1, 0⟩).kind = _
            rw [hacc]
            simp
        · exact ih.2 w hw

/-- The five-reel single-pay-symbol ways configuration of the concrete
scenario. -/
def cfgWays : Config :=
  ⟨5, [1, 3, 3, 3, 3], [((5, "H1"), 70)], [("wild", ["W"])], [], false, 5000⟩

/-- The matching symbol of the concrete ways boards. -/
def waysH1 : Symbol := mkSymbol cfgWays "H1"

/-- A board with one matching symbol on reel 0 and `k` matching symbols
on each of reels 1–4, no wilds, no multipliers. -/
def mkWaysBoard (k : ℕ) : List (List Symbol) :=
  [waysH1] :: List.replicate 4 (List.replicate k waysH1)

theorem getD_mem_or {α : Type} (l : List α) (i : ℕ) (d : α) :
    l.getD i d ∈ l ∨ l.getD i d = d := by
  induction l generalizing i with
  | nil => right; cases i <;> rfl
  | cons a t ih =>
    cases i with
    | zero => left; simp
    | succ j =>
      rcases ih j with h | h
      · left
        simpa using Or.inr (by simpa using h)
      · right
        simpa using h

theorem mkWaysBoard_cell (k : ℕ) (p : ℕ × ℕ) :
    checkAttribute (cellAt (mkWaysBoard k) p) ["multiplier"] = false := by
  have hrowmem : ∀ row ∈ mkWaysBoard k, ∀ s ∈ row, s = waysH1 := by
    intro row hrow s hs
    rw [mkWaysBoard] at hrow
    rcases List.mem_cons.mp hrow with h | h
    · subst h
      simpa using hs
    · have h2 := List.eq_of_mem_replicate h
      subst h2
      exact List.eq_of_mem_replicate hs
  have hcell : cellAt (mkWaysBoard k) p = waysH1 ∨
      cellAt (mkWaysBoard k) p = ⟨"", []⟩ := by
    rw [cellAt]
    rcases getD_mem_or (mkWaysBoard k) p.1 [] with hrow | hrow
    · rcases getD_mem_or ((mkWaysBoard k).getD p.1 []) p.2 ⟨"", []⟩ with hc | hc
      · exact Or.inl (hrowmem _ hrow _ hc)
      · exact Or.inr hc
    · rw [hrow]
      right
      cases p.2 <;> rfl
  rcases hcell with h | h <;> rw [h] <;> rfl

theorem mkWaysBoard_multEnhance (k : ℕ) (ps : List (ℕ × ℕ)) :
    multiplierEnhance (mkWaysBoard k) "multiplier" ps = 0 := by
  rw [multiplierEnhance]
  apply List.sum_eq_zero
  intro x hx
  rcases List.mem_map.mp hx with ⟨p, hp, rfl⟩
  rw [if_neg]
  rintro ⟨h1, h2⟩
  rw [mkWaysBoard_cell k p] at h1
  exact Bool.noConfusion h1

theorem enumFrom_filterMap_all_name (name : String) (r : ℕ) :
    ∀ (l : List Symbol) (n : ℕ), (∀ s ∈ l, s.name = name) →
      ((List.enumFrom n l).filterMap
        (fun q => if q.2.name = name then some (r, q.1) else none)).length =
        l.length := by
  intro l
  induction l with
  | nil =>
    intro n h
    simp
  | cons a t ih =>
    intro n h
    simp only [List.enumFrom, List.filterMap_cons]
    rw [if_pos (h a (by simp))]
    simp only [List.length_cons]
    rw [ih (n + 1) (fun s hs => h s (by simp [hs]))]

theorem enumFrom_filterMap_none_name (cfg : Config) (wildKey : String) (r : ℕ) :
    ∀ (l : List Symbol) (n : ℕ),
      (∀ s ∈ l, s.name ∉ specialList cfg wildKey) →
      ((List.enumFrom n l).filterMap
        (fun q => if q.2.name ∈ specialList cfg wildKey then some (r, q.1)
          else none)) = [] := by
  intro l
  induction l with
  | nil =>
    intro n h
    simp
  | cons a t ih =>
    intro n h
    simp only [List.enumFrom, List.filterMap_cons]
    rw [if_neg (h a (by simp))]
    exact ih (n + 1) (fun s hs => h s (by simp [hs]))

theorem mkWaysBoard_row_succ (k : ℕ) (r : ℕ) (h : r < 4) :
    (mkWaysBoard k).getD (r + 1) [] = List.replicate k waysH1 := by
  interval_cases r <;> rfl

theorem mkWaysBoard_positions_length (k : ℕ) (r : ℕ) (h : r < 4) :
    (reelPositionsOf (mkWaysBoard k) "H1" (r + 1)).length = k := by
  rw [reelPositionsOf, mkWaysBoard_row_succ k r h]
  have := enumFrom_filterMap_all_name "H1" (r + 1) (List.replicate k waysH1) 0
    (fun s hs => by rw [List.eq_of_mem_replicate hs]; rfl)
  simpa [List.enum] using this

theorem mkWaysBoard_wilds (k : ℕ) (r : ℕ) :
    reelWilds cfgWays (mkWaysBoard k) "wild" r = [] := by
  rw [reelWilds]
  have hall : ∀ s ∈ (mkWaysBoard k).getD r [], s.name ∉
      specialList cfgWays "wild" := by
    intro s hs
    rcases getD_mem_or (mkWaysBoard k) r [] with hrow | hrow
    · have hmem : ∀ row ∈ mkWaysBoard k, ∀ s2 ∈ row, s2 = waysH1 := by
        intro row hrow2 s2 hs2
        rw [mkWaysBoard] at hrow2
        rcases List.mem_cons.mp hrow2 with h | h
        · subst h
          simpa using hs2
        · have h2 := List.eq_of_mem_replicate h
          subst h2
          exact List.eq_of_mem_replicate hs2
      rw [hmem _ hrow _ hs]
      decide
    · rw [hrow] at hs
      simp at hs
  have := enumFrom_filterMap_none_name cfgWays "wild" r
    ((mkWaysBoard k).getD r []) 0 hall
  simpa [List.enum] using this

theorem mkWaysBoard_factor_zero (k : ℕ) :
    reelFactor cfgWays (mkWaysBoard k) "wild" "multiplier" "H1" 0 = 1 := by
  rw [reelFactor, mkWaysBoard_multEnhance, mkWaysBoard_wilds,
    show reelPositionsOf (mkWaysBoard k) "H1" 0 = [(0, 0)] from rfl]
  norm_num

theorem mkWaysBoard_factor_succ (k : ℕ) (r : ℕ) (h : r < 4) :
    reelFactor cfgWays (mkWaysBoard k) "wild" "multiplier" "H1" (r + 1) =
      (k : ℚ) := by
  rw [reelFactor, mkWaysBoard_multEnhance, mkWaysBoard_wilds,
    mkWaysBoard_positions_length k r h]
  norm_num

theorem mkWaysBoard_contrib (k : ℕ) (hk : 0 < k) :
    contribPrefix cfgWays (mkWaysBoard k) "wild" "H1" (List.range 5) =
      [0, 1, 2, 3, 4] := by
  have hcond : ∀ r < 5,
      decide (0 < (reelPositionsOf (mkWaysBoard k) "H1" r).length ∨
        0 < (reelWilds cfgWays (mkWaysBoard k) "wild" r).length) = true := by
    intro r hr
    apply decide_eq_true
    left
    cases r with
    | zero =>
      rw [show reelPositionsOf (mkWaysBoard k) "H1" 0 = [(0, 0)] from rfl]
      simp
    | succ j =>
      rw [mkWaysBoard_positions_length k j (by omega)]
      exact hk
  rw [show List.range 5 = [0, 1, 2, 3, 4] from rfl, contribPrefix]
  rw [List.takeWhile_cons, if_pos (hcond 0 (by norm_num))]
  rw [List.takeWhile_cons, if_pos (hcond 1 (by norm_num))]
  rw [List.takeWhile_cons, if_pos (hcond 2 (by norm_num))]
  rw [List.takeWhile_cons, if_pos (hcond 3 (by norm_num))]
  rw [List.takeWhile_cons, if_pos (hcond 4 (by norm_num))]
  rfl

theorem mkWaysBoard_acc (k : ℕ) (hk : 0 < k) :
    waysFold cfgWays (mkWaysBoard k) "wild" "multiplier" "H1"
      (List.range (mkWaysBoard k).length) ⟨0, 1, 0⟩ =
      ⟨5, (k : ℚ) ^ 4, 0⟩ := by
  rw [show (mkWaysBoard k).length = 5 by simp [mkWaysBoard]]
  rw [waysFold_spec, mkWaysBoard_contrib k hk]
  simp only [List.map_cons, List.map_nil, List.prod_cons, List.prod_nil,
    List.sum_cons, List.sum_nil, List.length_cons, List.length_nil,
    mkWaysBoard_factor_zero,
    show reelFactor cfgWays (mkWaysBoard k) "wild" "multiplier" "H1" 1 =
      (k : ℚ) from mkWaysBoard_factor_succ k 0 (by norm_num),
    show reelFactor cfgWays (mkWaysBoard k) "wild" "multiplier" "H1" 2 =
      (k : ℚ) from mkWaysBoard_factor_succ k 1 (by norm_num),
    show reelFactor cfgWays (mkWaysBoard k) "wild" "multiplier" "H1" 3 =
      (k : ℚ) from mkWaysBoard_factor_succ k 2 (by norm_num),
    show reelFactor cfgWays (mkWaysBoard k) "wild" "multiplier" "H1" 4 =
      (k : ℚ) from mkWaysBoard_factor_succ k 3 (by norm_num),
    mkWaysBoard_multEnhance, WaysAcc.mk.injEq]
  refine ⟨by norm_num, by ring, by norm_num⟩

theorem mkWaysBoard_total (k : ℕ) (hk : 0 < k) (g : ℚ) :
    (getWaysData cfgWays (mkWaysBoard k) g).1 = 70 * (k : ℚ) ^ 4 ∧
    ∀ w ∈ (getWaysData cfgWays (mkWaysBoard k) g).2, w.ways = (k : ℚ) ^ 4 := by
  rw [getWaysData,
    show reelZeroNames (mkWaysBoard k) = ["H1"] from rfl]
  simp only [waysGo, mkWaysBoard_acc k hk]
  rw [show paytableLookup cfgWays (WaysAcc.mk 5 ((k : ℚ) ^ 4) 0).kind "H1" =
    some 70 from rfl]
  constructor
  · simp
  · intro w hw
    simp only [List.mem_cons] at hw
    rcases hw with hw | hw
    · subst hw
      rfl
    · simp at hw

/-- C3 (amended): the Ways evaluator computes `ways` as the product over
the contributing reel prefix of (matching count + wild count +
symbol-multiplier enhancement); the returned `totalWin` is the sum over
paying symbols of `paytable[(kind, symbol)] × ways` — the global
multiplier is applied to each recorded win's amount, not accumulated
into `totalWin` —; and on a board with one matching symbol on reel 0 and
`k` matching symbols on reels 1–4 (no wilds, no multipliers),
`ways = k^4` and total win `= paytable[(5, symbol)] × k^4`. -/
theorem ways_product_and_totals (cfg : Config) (board : List (List Symbol))
    (wildKey multKey : String) (g : ℚ) :
    ((getWaysData cfg board g wildKey multKey).1 =
      ((getWaysData cfg board g wildKey multKey).2.map
        WaysWin.winWithoutMult).sum) ∧
    (∀ w ∈ (getWaysData cfg board g wildKey multKey).2,
      ∃ pay, paytableLookup cfg w.kind w.symbol = some pay ∧
        w.winWithoutMult = pay * w.ways ∧
        w.win = w.winWithoutMult * g ∧
        w.ways = ((contribPrefix cfg board wildKey w.symbol
            (List.range board.length)).map
          (reelFactor cfg board wildKey multKey w.symbol)).prod ∧
        w.kind = (contribPrefix cfg board wildKey w.symbol
          (List.range board.length)).length) ∧
    (∀ k : ℕ, 0 < k →
      (getWaysData cfgWays (mkWaysBoard k) g).1 = 70 * (k : ℚ) ^ 4 ∧
      ∀ w ∈ (getWaysData cfgWays (mkWaysBoard k) g).2,
        w.ways = (k : ℚ) ^ 4) := by
  refine ⟨?_, ?_, ?_⟩
  · exact (waysGo_spec cfg board wildKey multKey g (reelZeroNames board)).1
  · exact (waysGo_spec cfg board wildKey multKey g (reelZeroNames board)).2
  · intro k hk
    exact mkWaysBoard_total k hk g

/-- Instantiation of `ways_product_and_totals` at `k = 2`, global
multiplier 1: `ways = 2^4 = 16` and `totalWin = 70 × 16`. -/
theorem ways_product_and_totals_witness :
    0 < 2 ∧
    ((getWaysData cfgWays (mkWaysBoard 2) 1).1 = 70 * (2 : ℚ) ^ 4 ∧
      ∀ w ∈ (getWaysData cfgWays (mkWaysBoard 2) 1).2,
        w.ways = (2 : ℚ) ^ 4) :=
  ⟨by decide,
    (ways_product_and_totals cfgWays (mkWaysBoard 2) "wild" "multiplier"
      1).2.2 2 (by decide)⟩

/-- C3, as stated, is false on the code: with global multiplier 2 the
recorded win amount is `paytable × ways × 2 = 140`, but the returned
`totalWin` stays at the pre-multiplier `70` — `totalWin` does not have
the global multiplier applied. -/
theorem ways_totalWin_no_global_mult_counterexample :
    (getWaysData cfgWays (mkWaysBoard 1) 2).1 = 70 ∧
    ((getWaysData cfgWays (mkWaysBoard 1) 2).2.map WaysWin.win).sum = 140 ∧
    (70 : ℚ) ≠ 140 := by
  have h := mkWaysBoard_acc 1 (by norm_num)
  refine ⟨?_, ?_, by norm_num⟩
  · rw [getWaysData, show reelZeroNames (mkWaysBoard 1) = ["H1"] from rfl]
    simp only [waysGo, h]
    rw [show paytableLookup cfgWays (WaysAcc.mk 5 ((1 : ℚ) ^ 4) 0).kind "H1" =
      some 70 from rfl]
    norm_num
  · rw [getWaysData, show reelZeroNames (mkWaysBoard 1) = ["H1"] from rfl]
    simp only [waysGo, h]
    rw [show paytableLookup cfgWays (WaysAcc.mk 5 ((1 : ℚ) ^ 4) 0).kind "H1" =
      some 70 from rfl]
    simp only [applyMultGlobal]
    norm_num

/-! ## Lines pay: `Lines.get_lines` (C6)

`src/calculations/lines.py`, lines 62–181: walk each payline left to
right tracking a leading pure-wild run and the wild-substituted symbol
run, score both against the paytable, and record whichever pays more
(ties favour the symbol run). -/

/-- `board[reel][line[reel]]`. -/
def bget (board : List (List Symbol)) (r row : ℕ) : Symbol :=
  (board.getD r []).getD row ⟨"", []⟩

/-- The walk state of one payline: whether the leading pure-wild run has
ended, the first non-wild symbol (if seen), and the two match counters. -/
structure LineState where
  finished : Bool
  firstNonWild : Option Symbol
  wildMatches : ℕ
  matchCount : ℕ
  deriving DecidableEq

/-- Modelled from the spec: `apply_mult` (strategy `"symbol"`) from
`src/wins/multiplier_strategy.py` is absent from the sources; per §4.2
the symbol strategy sums the multiplier attributes over the win's
positions, floors the sum at 1, and multiplies it into the win. -/
def applyMultSymbol (board : List (List Symbol)) (multKey : String)
    (positions : List (ℕ × ℕ)) (winAmount : ℚ) : ℚ × ℚ :=
  let m := max ((positions.map (fun p =>
    if checkAttribute (cellAt board p) [multKey] then
      ratOf (getAttribute (cellAt board p) multKey)
    else 0)).sum) 1
  (winAmount * m, m)

/-- The reel loop of `get_lines` for one payline (`r` is the current
reel, the list holds the remaining row indices `line[r]`, and the match
on an absent `first_non_wild` mirrors the source's attribute access,
which is only reached with the option set). -/
def lineWalk (board : List (List Symbol)) (wildKey : String) :
    List ℕ → ℕ → LineState → LineState
  | [], _, st => st
  | row :: rest, r, st =>
    let sym := bget board r row
    if st.finished = true then
      if sym.name = (st.firstNonWild.getD ⟨"", []⟩).name ∨
          checkAttribute sym [wildKey] then
        lineWalk board wildKey rest (r + 1) { st with matchCount := st.matchCount + 1 }
      else st
    else
      if checkAttribute sym [wildKey] ∧ st.firstNonWild = none then
        lineWalk board wildKey rest (r + 1)
          { st with wildMatches := st.wildMatches + 1 }
      else if st.firstNonWild = none then
        lineWalk board wildKey rest (r + 1)
          ⟨true, some sym, st.wildMatches, st.matchCount + 1⟩
      else st

/-- The initial walk state from the payline's first symbol. -/
def lineStart (board : List (List Symbol)) (wildKey : String)
    (line : List ℕ) : LineState :=
  let first := bget board 0 (line.getD 0 0)
  let finished := !(checkAttribute first [wildKey])
  ⟨finished, if finished then some first else none,
    if finished then 0 else 1, if finished then 1 else 0⟩

/-- The final walk state of one payline. -/
def lineState (board : List (List Symbol)) (wildKey : String)
    (line : List ℕ) : LineState :=
  lineWalk board wildKey (line.drop 1) 1 (lineStart board wildKey line)

/-- The pure-wild-run payout of a payline (0 when the paytable has no
entry). -/
def lineWildWin (cfg : Config) (board : List (List Symbol))
    (wildKey wildSym : String) (line : List ℕ) : ℚ :=
  (paytableLookup cfg (lineState board wildKey line).wildMatches wildSym).getD 0

/-- The wild-substituted symbol-run payout of a payline. -/
def lineBaseWin (cfg : Config) (board : List (List Symbol))
    (wildKey : String) (line : List ℕ) : ℚ :=
  match (lineState board wildKey line).firstNonWild with
  | some f =>
    (paytableLookup cfg ((lineState board wildKey line).wildMatches +
      (lineState board wildKey line).matchCount) f.name).getD 0
  | none => 0

/-- One recorded line win. -/
structure LineWin where
  symbol : String
  kind : ℕ
  win : ℚ
  positions : List (ℕ × ℕ)
  lineIndex : ℕ
  multiplier : ℚ
  winWithoutMult : ℚ
  deriving DecidableEq

/-- The per-payline body of `get_lines`: score both interpretations and
keep the one that pays more (ties to the symbol run); `none` when
neither pays. -/
def lineEval (cfg : Config) (board : List (List Symbol))
    (wildKey wildSym multKey : String) (lineIndex : ℕ) (line : List ℕ) :
    Option LineWin :=
  let first := bget board 0 (line.getD 0 0)
  let st := lineState board wildKey line
  let wildWin := lineWildWin cfg board wildKey wildSym line
  let baseWin := lineBaseWin cfg board wildKey line
  if 0 < baseWin ∨ 0 < wildWin then
    if baseWin < wildWin then
      let positions := (List.range st.wildMatches).map
        (fun idx => (idx, line.getD idx 0))
      let am := applyMultSymbol board multKey positions wildWin
      some ⟨first.name, st.wildMatches, am.1, positions, lineIndex, am.2,
        wildWin⟩
    else
      let positions := (List.range (st.matchCount + st.wildMatches)).map
        (fun idx => (idx, line.getD idx 0))
      let am := applyMultSymbol board multKey positions baseWin
      some ⟨(st.firstNonWild.getD ⟨"", []⟩).name, st.matchCount + st.wildMatches,
        am.1, positions, lineIndex, am.2, baseWin⟩
  else none

/-- The payline loop of `get_lines`. -/
def linesGo (cfg : Config) (board : List (List Symbol))
    (wildKey wildSym multKey : String) :
    List (ℕ × List ℕ) → ℚ × List LineWin
  | [] => (0, [])
  | (lineIndex, line) :: rest =>
    let res := linesGo cfg board wildKey wildSym multKey rest
    match lineEval cfg board wildKey wildSym multKey lineIndex line with
    | none => res
    | some w => (w.win + res.1, w :: res.2)

/-- `Lines.get_lines`. -/
def getLines (board : List (List Symbol)) (cfg : Config)
    (wildKey : String := "wild") (wildSym : String := "W")
    (multKey : String := "multiplier") : ℚ × List LineWin :=
  linesGo cfg board wildKey wildSym multKey cfg.paylines

theorem linesGo_sum (cfg : Config) (board : List (List Symbol))
    (wildKey wildSym multKey : String) :
    ∀ pls : List (ℕ × List ℕ),
      (linesGo cfg board wildKey wildSym multKey pls).1 =
        ((linesGo cfg board wildKey wildSym multKey pls).2.map
          LineWin.win).sum ∧
      (linesGo cfg board wildKey wildSym multKey pls).2 =
        pls.filterMap (fun pl =>
          lineEval cfg board wildKey wildSym multKey pl.1 pl.2) := by
  intro pls
  induction pls with
  | nil => exact ⟨by simp [linesGo], by simp [linesGo]⟩
  | cons pl rest ih =>
    obtain ⟨lineIndex, line⟩ := pl
    simp only [linesGo]
    rcases he : lineEval cfg board wildKey wildSym multKey lineIndex line
      with _ | w
    · simp only [he]
      refine ⟨ih.1, ?_⟩
      rw [List.filterMap_cons]
      simp only [he]
      exact ih.2
    · simp only [he]
      constructor
      · simp only [List.map_cons, List.sum_cons]
        rw [ih.1]
      · rw [List.filterMap_cons]
        simp only [he]
        rw [ih.2]

/-- C6: each payline computes both the pure-wild-run payout and the
wild-substituted symbol-run payout against the paytable and records the
one paying more: the recorded base amount is the maximum of the two; on
a tie (or whenever the symbol run pays at least as much) the symbol-run
interpretation is recorded, whose matched count
(wild matches + symbol matches) is at least the pure-wild count; the
line's contribution to `totalWin` is the chosen payout with the
multiplier strategy applied. -/
theorem lines_best_interpretation (cfg : Config)
    (board : List (List Symbol)) (wildKey wildSym multKey : String) :
    ((getLines board cfg wildKey wildSym multKey).1 =
      ((getLines board cfg wildKey wildSym multKey).2.map
        LineWin.win).sum) ∧
    ((getLines board cfg wildKey wildSym multKey).2 =
      cfg.paylines.filterMap (fun pl =>
        lineEval cfg board wildKey wildSym multKey pl.1 pl.2)) ∧
    (∀ lineIndex line w,
      lineEval cfg board wildKey wildSym multKey lineIndex line = some w →
      w.winWithoutMult = max (lineWildWin cfg board wildKey wildSym line)
        (lineBaseWin cfg board wildKey line) ∧
      w.win = (applyMultSymbol board multKey w.positions w.winWithoutMult).1 ∧
      (lineWildWin cfg board wildKey wildSym line ≤
          lineBaseWin cfg board wildKey line →
        w.kind = (lineState board wildKey line).matchCount +
            (lineState board wildKey line).wildMatches ∧
        (lineState board wildKey line).wildMatches ≤ w.kind) ∧
      (lineBaseWin cfg board wildKey line <
          lineWildWin cfg board wildKey wildSym line →
        w.kind = (lineState board wildKey line).wildMatches)) := by
  refine ⟨(linesGo_sum cfg board wildKey wildSym multKey cfg.paylines).1,
    (linesGo_sum cfg board wildKey wildSym multKey cfg.paylines).2, ?_⟩
  intro lineIndex line w h
  rw [lineEval] at h
  split_ifs at h with h1 h2
  · -- wild run pays strictly more
    cases h
    refine ⟨by simp [max_eq_left (le_of_lt h2)], rfl, ?_, ?_⟩
    · intro hle
      exact absurd h2 (not_lt.mpr hle)
    · intro _
      rfl
  · -- symbol run pays at least as much (ties included)
    cases h
    refine ⟨by simp [max_eq_right (not_lt.mp h2)], rfl, ?_, ?_⟩
    · intro _
      exact ⟨rfl, by simp⟩
    · intro hlt
      exact absurd hlt (not_lt.mpr (not_lt.mp h2))

/-- A board whose payline starts with a wild followed by two `H1`s: the
symbol-run interpretation pays 50 and is recorded with count 3. -/
def cfgLines : Config :=
  ⟨3, [1, 1, 1], [((3, "H1"), 50)], [("wild", ["W"])],
    [(1, [0, 0, 0])], false, 5000⟩

/-- The one-row wild/H1/H1 board. -/
def boardLines : List (List Symbol) :=
  [[mkSymbol cfgLines "W"], [mkSymbol cfgLines "H1"], [mkSymbol cfgLines "H1"]]

/-- The line win recorded on `boardLines`. -/
def lineWinEx : LineWin := ⟨"H1", 3, 50, [(0, 0), (1, 0), (2, 0)], 1, 1, 50⟩

/-- Concrete line run: the wild-then-`H1` payline records the symbol-run
interpretation with count 3 ≥ 1 wild match and pays 50. -/
theorem lines_best_interpretation_witness :
    lineEval cfgLines boardLines "wild" "W" "multiplier" 1 [0, 0, 0] =
      some lineWinEx ∧
    (lineWinEx.winWithoutMult =
      max (lineWildWin cfgLines boardLines "wild" "W" [0, 0, 0])
        (lineBaseWin cfgLines boardLines "wild" [0, 0, 0]) ∧
    lineWinEx.win = (applyMultSymbol boardLines "multiplier"
      lineWinEx.positions lineWinEx.winWithoutMult).1 ∧
    (lineWildWin cfgLines boardLines "wild" "W" [0, 0, 0] ≤
        lineBaseWin cfgLines boardLines "wild" [0, 0, 0] →
      lineWinEx.kind = (lineState boardLines "wild" [0, 0, 0]).matchCount +
          (lineState boardLines "wild" [0, 0, 0]).wildMatches ∧
      (lineState boardLines "wild" [0, 0, 0]).wildMatches ≤ lineWinEx.kind) ∧
    (lineBaseWin cfgLines boardLines "wild" [0, 0, 0] <
        lineWildWin cfgLines boardLines "wild" "W" [0, 0, 0] →
      lineWinEx.kind = (lineState boardLines "wild" [0, 0, 0]).wildMatches)) := by
  have hst : lineState boardLines "wild" [0, 0, 0] =
      ⟨true, some (mkSymbol cfgLines "H1"), 1, 2⟩ := by decide
  have hwild : lineWildWin cfgLines boardLines "wild" "W" [0, 0, 0] = 0 := by
    rw [lineWildWin, hst]
    rfl
  have hbase : lineBaseWin cfgLines boardLines "wild" [0, 0, 0] = 50 := by
    rw [lineBaseWin, hst]
    rfl
  have hmult : applyMultSymbol boardLines "multiplier"
      [(0, 0), (1, 0), (2, 0)] 50 = (50, 1) := by
    rw [applyMultSymbol]
    norm_num [cellAt, boardLines, checkAttribute, mkSymbol, cfgLines,
      List.lookup, getAttribute, ratOf, List.filterMap_cons,
      show (("multiplier" : String) == "wild") = false from rfl,
      show (("multiplier" : String) == "special") = false from rfl]
  have he : lineEval cfgLines boardLines "wild" "W" "multiplier" 1 [0, 0, 0] =
      some lineWinEx := by
    rw [lineEval]
    simp only [hst, hwild, hbase]
    rw [if_pos (by norm_num), if_neg (by norm_num)]
    simp only [show (List.range (2 + 1)).map
        (fun idx => (idx, ([0, 0, 0] : List ℕ).getD idx 0)) =
        [(0, 0), (1, 0), (2, 0)] from rfl, hmult]
    rfl
  exact ⟨he, (lines_best_interpretation cfgLines boardLines "wild" "W"
    "multiplier").2.2 1 [0, 0, 0] lineWinEx he⟩

/-! ## The `template_cluster` spin state machine (C2, C8)

`src/games/template_cluster/game_state.py` together with
`src/state/state.py`, `src/executables/executables.py` and
`src/wins/win_manager.py`.  The RNG is an abstract counter seeded by
`reset_seed` (`random.seed(sim + 1)`); the RNG-driven board draw, the
flood-fill clustering and the tumble refill are injected as
deterministic functions of that counter (`Hooks`), while the win/event
bookkeeping, the win-cap logic and the two game loops are embedded from
the source. -/

/-- The two game phases (`base_game_type` / `free_game_type`). -/
inductive GType where
  | base
  | freeGame
  deriving DecidableEq

/-- The book events recorded by the embedded machine (payload reduced to
the fields the claims mention). -/
inductive Ev where
  | reveal (board : List (List String))
  | winInfo (amount : ℚ)
  | updateTumbleWin (amount : ℚ)
  | winCap (amount : ℚ)
  | setWin (amount : ℚ)
  | setTotalWin (amount : ℚ)
  | tumbleBoard
  | updateFs (n total : ℕ)
  | triggerFs (total : ℕ) (baseGameTrigger : Bool)
  | endFs (amount : ℚ)
  | updateGrid (grid : List (List ℕ))
  | setFinalWin (amount : ℚ)
  deriving DecidableEq

/-- `WinManager` (`src/wins/win_manager.py`), all three levels. -/
structure WinMgr where
  totalCumulativeWins : ℚ
  cumulativeBaseWins : ℚ
  cumulativeFreeWins : ℚ
  runningBetWin : ℚ
  baseGameWins : ℚ
  freeGameWins : ℚ
  spinWin : ℚ
  tumbleWin : ℚ
  deriving DecidableEq

/-- `WinManager.update_spin_win`. -/
def updateSpinWin (amount : ℚ) (wm : WinMgr) : WinMgr :=
  { wm with
    spinWin := wm.spinWin + amount
    runningBetWin := wm.runningBetWin + amount }

/-- `WinManager.reset_spin_win`. -/
def resetSpinWin (wm : WinMgr) : WinMgr :=
  { wm with spinWin := 0 }

/-- `WinManager.update_game_type_wins`. -/
def updateGameTypeWins (gt : GType) (wm : WinMgr) : WinMgr :=
  match gt with
  | GType.base => { wm with baseGameWins := wm.baseGameWins + wm.spinWin }
  | GType.freeGame => { wm with freeGameWins := wm.freeGameWins + wm.spinWin }

/-- `WinManager.update_end_round_wins`. -/
def updateEndRoundWins (wm : WinMgr) : WinMgr :=
  { wm with
    totalCumulativeWins := wm.totalCumulativeWins +
      (wm.baseGameWins + wm.freeGameWins),
    cumulativeBaseWins := wm.cumulativeBaseWins + wm.baseGameWins,
    cumulativeFreeWins := wm.cumulativeFreeWins + wm.freeGameWins }

/-- `WinManager.reset_end_round_wins` (cumulative totals survive). -/
def resetEndRoundWins (wm : WinMgr) : WinMgr :=
  { wm with
    baseGameWins := 0
    freeGameWins := 0
    runningBetWin := 0
    spinWin := 0
    tumbleWin := 0 }

/-- The configuration slice consumed by the `template_cluster` machine:
the shared `Config` plus the free-spin trigger table, the grid-multiplier
cap and the active distribution conditions. -/
structure ClusterCfg where
  cfg : Config
  freeSpinTriggers : GType → ℕ → ℕ
  minTrigger : GType → ℕ
  maximumBoardMult : ℕ
  forceFreeGame : Bool
  winCriteria : Option ℚ
  criteria : String

/-- The RNG-driven game functions injected into the machine: the board
draw of `draw_board` (including any forced-scatter handling), the
flood-fill `Cluster.get_clusters`, and the strip refill of
`tumble_board`; each is a deterministic function of the RNG counter, as
in the seeded source. -/
structure Hooks where
  drawBoard : GType → ℕ → List (List Symbol) × ℕ
  clusters : List (List Symbol) → List (String × List (List (ℕ × ℕ)))
  tumble : List (List Symbol) → ℕ → List (List Symbol) × ℕ

/-- The mutable state of `GameState` that the round logic touches. -/
structure GState where
  winManager : WinMgr
  board : List (List Symbol)
  winDataTotal : ℚ
  winDataWins : List (List (ℕ × ℕ))
  events : List Ev
  globalMultiplier : ℚ
  finalWin : ℚ
  payoutMultiplier : ℚ
  bookBase : ℚ
  bookFree : ℚ
  totFs : ℕ
  fs : ℕ
  wincapTriggered : Bool
  triggeredFreeGame : Bool
  gameType : GType
  repeatFlag : Bool
  positionMultipliers : List (List ℕ)
  rng : ℕ
  tumbleWinG : ℚ
  deriving DecidableEq

/-- `reset_seed`: `random.seed(sim + 1)`. -/
def resetSeed (sim : ℕ) (s : GState) : GState :=
  { s with rng := sim + 1 }

/-- `reset_book` (base class plus the template's `tumble_win = 0`):
everything round-local is cleared — `position_multipliers` is NOT
touched, and the cumulative win tallies survive
`reset_end_round_wins`. -/
def resetBook (cc : ClusterCfg) (s : GState) : GState :=
  { s with
    board := cc.cfg.numRows.map (fun _ => [])
    winDataTotal := 0
    winDataWins := []
    events := []
    winManager := resetEndRoundWins s.winManager
    globalMultiplier := 1
    finalWin := 0
    payoutMultiplier := 0
    bookBase := 0
    bookFree := 0
    totFs := 0
    fs := 0
    wincapTriggered := false
    triggeredFreeGame := false
    gameType := GType.base
    repeatFlag := false
    tumbleWinG := 0 }

/-- `Executables.evaluate_wincap`: set the one-time flag and emit the
cap event the first time `running_bet_win` reaches the cap. -/
def evaluateWincap (cc : ClusterCfg) (s : GState) : GState :=
  if cc.cfg.winCap ≤ s.winManager.runningBetWin ∧ s.wincapTriggered = false then
    { s with
      wincapTriggered := true
      events := s.events ++
        [Ev.winCap (min s.winManager.runningBetWin cc.cfg.winCap)] }
  else s

/-- `Executables.emit_tumble_win_events`. -/
def emitTumbleWinEvents (cc : ClusterCfg) (s : GState) : GState :=
  if 0 < s.winDataTotal then
    evaluateWincap cc
      { s with events := s.events ++
        [Ev.winInfo s.winDataTotal,
          Ev.updateTumbleWin (min s.winManager.spinWin cc.cfg.winCap)] }
  else s

/-- Set the `explode` flag on the given positions. -/
def markExplode (board : List (List Symbol)) (ps : List (ℕ × ℕ)) :
    List (List Symbol) :=
  ps.foldl (fun b p =>
    b.set p.1 ((b.getD p.1 []).set p.2
      (assignAttribute (cellAt b p) "explode" (AttrVal.b true)))) board

/-- Flatten the cluster dictionary into `(symbol, cluster)` pairs in
iteration order. -/
def clusterPairs (clusters : List (String × List (List (ℕ × ℕ)))) :
    List (String × List (ℕ × ℕ)) :=
  (clusters.map (fun sc => sc.2.map (fun c => (sc.1, c)))).flatten

/-- The cluster loop of
`GameState.evaluate_clusters_with_grid`: paytable hit, grid multiplier
summed over the cluster and floored at 1, explode marking. -/
def evalClustersGo (cfg : Config) (posMultGrid : List (List ℕ)) (g : ℚ) :
    List (String × List (ℕ × ℕ)) → List (List Symbol) → ℚ →
    List (List (ℕ × ℕ)) → List (List Symbol) × ℚ × List (List (ℕ × ℕ))
  | [], board, acc, wins => (board, acc, wins)
  | (sym, cluster) :: rest, board, acc, wins =>
    match paytableLookup cfg cluster.length sym with
    | none => evalClustersGo cfg posMultGrid g rest board acc wins
    | some pay =>
      let bm := max ((cluster.map
        (fun p => (posMultGrid.getD p.1 []).getD p.2 0)).sum) 1
      let win := pay * (bm : ℚ) * g
      evalClustersGo cfg posMultGrid g rest (markExplode board cluster)
        (acc + win) (wins ++ [cluster])

/-- `GameState.get_clusters_update_wins`: evaluate the clusters of the
current board against the grid multipliers, update the win manager. -/
def getClustersUpdateWins (cc : ClusterCfg) (hooks : Hooks) (s : GState) :
    GState :=
  let r := evalClustersGo cc.cfg s.positionMultipliers s.globalMultiplier
    (clusterPairs (hooks.clusters s.board)) s.board 0 []
  { s with
    board := r.1
    winDataTotal := r.2.1
    winDataWins := r.2.2
    winManager := { updateSpinWin r.2.1 s.winManager with tumbleWin := r.2.1 } }

/-- One grid-cell bump of `update_grid_multipliers`. -/
def bumpGrid (cc : ClusterCfg) (grid : List (List ℕ)) (p : ℕ × ℕ) :
    List (List ℕ) :=
  let v := (grid.getD p.1 []).getD p.2 0
  let v2 := if v = 0 then 1 else min (v + 1) cc.maximumBoardMult
  grid.set p.1 ((grid.getD p.1 []).set p.2 v2)

/-- `GameState.update_grid_multipliers`. -/
def updateGridMultipliers (cc : ClusterCfg) (s : GState) : GState :=
  if 0 < s.winDataTotal then
    let grid := s.winDataWins.foldl
      (fun g ps => ps.foldl (bumpGrid cc) g) s.positionMultipliers
    { s with
      positionMultipliers := grid
      events := s.events ++ [Ev.updateGrid grid] }
  else s

/-- `Executables.tumble_game_board`. -/
def tumbleGameBoard (cc : ClusterCfg) (hooks : Hooks) (s : GState) : GState :=
  let tb := hooks.tumble s.board s.rng
  { s with
    board := tb.1
    rng := tb.2
    events := s.events ++ [Ev.tumbleBoard] }

/-- One iteration body of the tumble loop: tumble the board, re-evaluate
the clusters, emit the win events, and (in the free game) bump the grid
multipliers. -/
def tumbleStep (cc : ClusterCfg) (hooks : Hooks) (withGrid : Bool)
    (s : GState) : GState :=
  let s1 := emitTumbleWinEvents cc
    (getClustersUpdateWins cc hooks (tumbleGameBoard cc hooks s))
  if withGrid then updateGridMultipliers cc s1 else s1

/-- The tumble loop of `run_spin`/`run_free_spin`:
`while totalWin > 0 and not wincap_triggered`; the free-spin variant
also bumps the grid multipliers after each evaluation. -/
def tumbleLoop (cc : ClusterCfg) (hooks : Hooks) (withGrid : Bool) :
    ℕ → GState → GState
  | 0, s => s
  | fuel + 1, s =>
    if 0 < s.winDataTotal ∧ s.wincapTriggered = false then
      tumbleLoop cc hooks withGrid fuel (tumbleStep cc hooks withGrid s)
    else s

/-- `Tumble.set_end_tumble_event` (the `SET_WIN` part is suppressed once
the cap is hit, as in `set_win_event`). -/
def setEndTumbleEvent (cc : ClusterCfg) (s : GState) : GState :=
  let s1 :=
    if 0 < s.winManager.spinWin then
      if s.wincapTriggered = false then
        { s with events := s.events ++
          [Ev.setWin (min s.winManager.spinWin cc.cfg.winCap)] }
      else s
    else s
  { s1 with events := s1.events ++
    [Ev.setTotalWin (min s.winManager.runningBetWin cc.cfg.winCap)] }

/-- `count_special_symbols` after `get_special_symbols_on_board`: cells
whose `special` flag is truthy and whose attribute of the requested
category checks. -/
def countSpecial (board : List (List Symbol)) (t : String) : ℕ :=
  (board.flatten.filter (fun s => symSpecial s && checkAttribute s [t])).length

/-- Names of the board cells, as shown by a `reveal` event. -/
def boardNames (board : List (List Symbol)) : List (List String) :=
  board.map (fun reel => reel.map (fun s => s.name))

/-- `GameState.update_free_spin` (template override): bump the counter,
emit the progress event, reset the spin win and clear the win data. -/
def updateFreeSpin (s : GState) : GState :=
  { s with
    fs := s.fs + 1
    events := s.events ++ [Ev.updateFs (s.fs + 1) s.totFs]
    winManager := resetSpinWin s.winManager
    winDataTotal := 0
    winDataWins := [] }

/-- `reset_grid_multipliers`: a zero for every configured cell. -/
def resetGridMultipliers (cc : ClusterCfg) (s : GState) : GState :=
  { s with positionMultipliers :=
    cc.cfg.numRows.map (fun n => List.replicate n 0) }

/-- `reset_free_spin` (template override: base reset plus grid reset). -/
def resetFreeSpin (cc : ClusterCfg) (s : GState) : GState :=
  resetGridMultipliers cc
    { s with
      triggeredFreeGame := true
      fs := 0
      gameType := GType.freeGame
      winManager := resetSpinWin s.winManager }

/-- `update_free_spin_amount`: initial free-spin allowance from the
scatter count, plus the trigger event. -/
def updateFreeSpinAmount (cc : ClusterCfg) (s : GState) : GState :=
  let total := cc.freeSpinTriggers s.gameType (countSpecial s.board "scatter")
  { s with
    totFs := total
    events := s.events ++ [Ev.triggerFs total (s.gameType = GType.base)] }

/-- `update_free_spin_retrigger_amount`. -/
def updateFreeSpinRetrigger (cc : ClusterCfg) (s : GState) : GState :=
  let total := s.totFs +
    cc.freeSpinTriggers s.gameType (countSpecial s.board "scatter")
  { s with
    totFs := total
    events := s.events ++ [Ev.triggerFs total false] }

/-- `check_free_spin_condition`. -/
def checkFreeSpinCondition (cc : ClusterCfg) (s : GState) : Bool :=
  decide (cc.minTrigger s.gameType ≤ countSpecial s.board "scatter") &&
    !s.repeatFlag

/-- `check_free_spin_entry`: accept when the bet-mode forces the free
game and enough scatters landed, otherwise flag the round for a
repeat. -/
def checkFreeSpinEntry (cc : ClusterCfg) (s : GState) : Bool × GState :=
  if cc.forceFreeGame ∧
      cc.minTrigger s.gameType ≤ countSpecial s.board "scatter" then
    (true, s)
  else (false, { s with repeatFlag := true })

/-- `draw_board` followed by the `reveal` event. -/
def revealBoard (hooks : Hooks) (s : GState) : GState :=
  let d := hooks.drawBoard s.gameType s.rng
  { s with
    board := d.1
    rng := d.2
    events := s.events ++ [Ev.reveal (boardNames d.1)] }

/-- The `update_grid_mult_event` emitted at the top of a free spin. -/
def emitGridEvent (s : GState) : GState :=
  { s with events := s.events ++ [Ev.updateGrid s.positionMultipliers] }

/-- `win_manager.update_gametype_wins(...)` on the current game type. -/
def commitGameTypeWins (s : GState) : GState :=
  { s with winManager := updateGameTypeWins s.gameType s.winManager }

/-- The retrigger check at the bottom of a free-spin iteration. -/
def retriggerCheck (cc : ClusterCfg) (s : GState) : GState :=
  if checkFreeSpinCondition cc s then updateFreeSpinRetrigger cc s else s

/-- One iteration of the free-spin loop of
`GameState.run_free_spin` (counter update, draw, grid event, cluster
evaluation, tumble loop with grid bumps, end-of-tumble events, phase
commit, retrigger check). -/
def freeSpinStep (cc : ClusterCfg) (hooks : Hooks) (tumbleFuel : ℕ)
    (s : GState) : GState :=
  retriggerCheck cc (commitGameTypeWins (setEndTumbleEvent cc
    (tumbleLoop cc hooks true tumbleFuel
      (updateGridMultipliers cc (emitTumbleWinEvents cc
        (getClustersUpdateWins cc hooks
          (emitGridEvent (revealBoard hooks (updateFreeSpin s)))))))))

/-- The `while self.fs < self.tot_fs` loop (fuel-bounded; note the
condition does not consult the win-cap flag). -/
def freeSpinLoop (cc : ClusterCfg) (hooks : Hooks) (tumbleFuel : ℕ) :
    ℕ → GState → GState
  | 0, s => s
  | fuel + 1, s =>
    if s.fs < s.totFs then
      freeSpinLoop cc hooks tumbleFuel fuel (freeSpinStep cc hooks tumbleFuel s)
    else s

/-- `end_free_spin`. -/
def endFreeSpin (cc : ClusterCfg) (s : GState) : GState :=
  { s with events := s.events ++
    [Ev.endFs (min s.winManager.freeGameWins cc.cfg.winCap)] }

/-- `GameState.run_free_spin`. -/
def runFreeSpin (cc : ClusterCfg) (hooks : Hooks) (tumbleFuel fsFuel : ℕ)
    (s : GState) : GState :=
  endFreeSpin cc (freeSpinLoop cc hooks tumbleFuel fsFuel (resetFreeSpin cc s))

/-- `update_final_win` as executed inside the machine (field updates;
the settlement assertion itself is modelled by `updateFinalWin`). -/
def updateFinalWinG (cc : ClusterCfg) (s : GState) : GState :=
  { s with
    finalWin := round2 (min s.winManager.runningBetWin cc.cfg.winCap)
    payoutMultiplier := round2 (min s.winManager.runningBetWin cc.cfg.winCap)
    bookBase := round2 (min s.winManager.baseGameWins cc.cfg.winCap)
    bookFree := round2 (min s.winManager.freeGameWins cc.cfg.winCap) }

/-- `evaluate_final_win`: settle and emit the final-win event. -/
def evaluateFinalWin (cc : ClusterCfg) (s : GState) : GState :=
  let s1 := updateFinalWinG cc s
  { s1 with events := s1.events ++
    [Ev.setFinalWin (min s1.finalWin cc.cfg.winCap)] }

/-- `GameState.check_repeat` (template override: win criteria, forced
free game, and the non-zero-win requirement). -/
def checkRepeat (cc : ClusterCfg) (s : GState) : GState :=
  if s.repeatFlag = false then
    let r1 : Bool := match cc.winCriteria with
      | some w => decide (s.finalWin ≠ w)
      | none => false
    let s1 := if r1 then { s with repeatFlag := true } else s
    let s2 := if cc.forceFreeGame ∧ s1.triggeredFreeGame = false then
      { s1 with repeatFlag := true } else s1
    if s2.winManager.runningBetWin = 0 ∧ cc.criteria ≠ "0" then
      { s2 with repeatFlag := true }
    else s2
  else s

/-- The free-game entry branch of `run_spin`: when the scatter condition
holds, accept/repeat via `check_fs_condition`, and on acceptance run the
free game. -/
def freeSpinPhase (cc : ClusterCfg) (hooks : Hooks) (tumbleFuel fsFuel : ℕ)
    (s : GState) : GState :=
  if checkFreeSpinCondition cc s = true then
    let e := checkFreeSpinEntry cc s
    if e.1 then
      runFreeSpin cc hooks tumbleFuel fsFuel (updateFreeSpinAmount cc e.2)
    else e.2
  else s

/-- The body of one `while self.repeat` iteration of
`GameState.run_spin`, after the book reset. -/
def baseSpinBody (cc : ClusterCfg) (hooks : Hooks) (tumbleFuel fsFuel : ℕ)
    (s : GState) : GState :=
  checkRepeat cc (evaluateFinalWin cc
    (freeSpinPhase cc hooks tumbleFuel fsFuel
      (commitGameTypeWins (setEndTumbleEvent cc
        (tumbleLoop cc hooks false tumbleFuel
          (emitTumbleWinEvents cc (getClustersUpdateWins cc hooks
            (revealBoard hooks s))))))))

/-- One `while self.repeat` iteration of `run_spin`, including the book
reset. -/
def baseSpinOnce (cc : ClusterCfg) (hooks : Hooks) (tumbleFuel fsFuel : ℕ)
    (s : GState) : GState :=
  baseSpinBody cc hooks tumbleFuel fsFuel (resetBook cc s)

/-- The remaining repeat iterations (fuel-bounded rejection sampling). -/
def repeatRest (cc : ClusterCfg) (hooks : Hooks) (tumbleFuel fsFuel : ℕ) :
    ℕ → GState → GState
  | 0, s => s
  | n + 1, s =>
    if s.repeatFlag then
      repeatRest cc hooks tumbleFuel fsFuel n
        (baseSpinOnce cc hooks tumbleFuel fsFuel s)
    else s

/-- `GameState.run_spin`: seed the RNG from `sim + 1`, then repeat the
round body until the criteria accept it. -/
def runSpinState (cc : ClusterCfg) (hooks : Hooks)
    (tumbleFuel fsFuel repeatFuel : ℕ) (sim : ℕ) (s : GState) : GState :=
  repeatRest cc hooks tumbleFuel fsFuel repeatFuel
    (baseSpinOnce cc hooks tumbleFuel fsFuel (resetSeed sim s))

/-- The per-round book handed to the library by `imprint_wins`. -/
structure BookOut where
  payoutMultiplier : ℚ
  events : List Ev
  baseGameWins : ℚ
  freeGameWins : ℚ
  deriving DecidableEq

/-- `run_spin` followed by the book extraction of `imprint_wins`. -/
def runSpinBook (cc : ClusterCfg) (hooks : Hooks)
    (tumbleFuel fsFuel repeatFuel : ℕ) (sim : ℕ) (s : GState) :
    BookOut × GState :=
  let s1 := runSpinState cc hooks tumbleFuel fsFuel repeatFuel sim s
  (⟨s1.payoutMultiplier, s1.events, s1.bookBase, s1.bookFree⟩,
    { s1 with winManager := updateEndRoundWins s1.winManager })

/-- Number of cap-reached events in a book. -/
def wcCount (evs : List Ev) : ℕ :=
  (evs.filter (fun e => match e with
    | Ev.winCap _ => true
    | _ => false)).length

/-- A round state whose book holds exactly one cap event iff the cap
flag is set. -/
def wcInv (s : GState) : Prop :=
  wcCount s.events = (if s.wincapTriggered = true then 1 else 0)

theorem wcCount_append (a b : List Ev) :
    wcCount (a ++ b) = wcCount a + wcCount b := by
  simp [wcCount, List.filter_append]

theorem evaluateWincap_id_of_triggered (cc : ClusterCfg) (s : GState)
    (h : s.wincapTriggered = true) : evaluateWincap cc s = s := by
  rw [evaluateWincap, if_neg]
  rintro ⟨_, h2⟩
  rw [h] at h2
  exact Bool.noConfusion h2

theorem evaluateWincap_inv (cc : ClusterCfg) (s : GState) (h : wcInv s) :
    wcInv (evaluateWincap cc s) ∧
    (s.wincapTriggered = true → (evaluateWincap cc s).wincapTriggered = true) := by
  constructor
  · rw [evaluateWincap]
    split_ifs with hc
    · rw [wcInv] at h ⊢
      simp only [wcCount_append]
      rw [hc.2] at h
      simp only [if_neg (by exact Bool.false_ne_true)] at h
      rw [h]
      simp [wcCount]
    · exact h
  · intro ht
    rw [evaluateWincap_id_of_triggered cc s ht]
    exact ht

theorem emitTumbleWinEvents_inv (cc : ClusterCfg) (s : GState) (h : wcInv s) :
    wcInv (emitTumbleWinEvents cc s) ∧
    (s.wincapTriggered = true →
      (emitTumbleWinEvents cc s).wincapTriggered = true) := by
  rw [emitTumbleWinEvents]
  split_ifs with hc
  · have h2 : wcInv { s with events := s.events ++
        [Ev.winInfo s.winDataTotal,
          Ev.updateTumbleWin (min s.winManager.spinWin cc.cfg.winCap)] } := by
      rw [wcInv] at h ⊢
      simp only [wcCount_append]
      rw [h]
      simp [wcCount]
    exact evaluateWincap_inv cc _ h2
  · exact ⟨h, fun ht => ht⟩

theorem getClustersUpdateWins_pres (cc : ClusterCfg) (hooks : Hooks)
    (s : GState) :
    (getClustersUpdateWins cc hooks s).wincapTriggered = s.wincapTriggered ∧
    (getClustersUpdateWins cc hooks s).events = s.events := by
  rw [getClustersUpdateWins]
  exact ⟨rfl, rfl⟩

theorem updateGridMultipliers_pres (cc : ClusterCfg) (s : GState) :
    (updateGridMultipliers cc s).wincapTriggered = s.wincapTriggered ∧
    wcCount (updateGridMultipliers cc s).events = wcCount s.events := by
  rw [updateGridMultipliers]
  split_ifs with hc
  · refine ⟨rfl, ?_⟩
    simp only [wcCount_append]
    simp [wcCount]
  · exact ⟨rfl, rfl⟩

theorem tumbleGameBoard_pres (cc : ClusterCfg) (hooks : Hooks) (s : GState) :
    (tumbleGameBoard cc hooks s).wincapTriggered = s.wincapTriggered ∧
    wcCount (tumbleGameBoard cc hooks s).events = wcCount s.events := by
  rw [tumbleGameBoard]
  refine ⟨rfl, ?_⟩
  simp only [wcCount_append]
  simp [wcCount]

theorem tumbleStep_inv (cc : ClusterCfg) (hooks : Hooks) (withGrid : Bool)
    (s : GState) (h : wcInv s) :
    wcInv (tumbleStep cc hooks withGrid s) ∧
    (s.wincapTriggered = true →
      (tumbleStep cc hooks withGrid s).wincapTriggered = true) := by
  have h1 := tumbleGameBoard_pres cc hooks s
  have h2 := getClustersUpdateWins_pres cc hooks (tumbleGameBoard cc hooks s)
  have hinv2 : wcInv (getClustersUpdateWins cc hooks
      (tumbleGameBoard cc hooks s)) := by
    rw [wcInv, h2.1, h2.2, h1.1, h1.2]
    exact h
  have h3 := emitTumbleWinEvents_inv cc _ hinv2
  rw [tumbleStep]
  by_cases hww : withGrid = true
  · rw [if_pos hww]
    have h4 := updateGridMultipliers_pres cc
      (emitTumbleWinEvents cc (getClustersUpdateWins cc hooks
        (tumbleGameBoard cc hooks s)))
    refine ⟨?_, ?_⟩
    · rw [wcInv, h4.1, h4.2]
      exact h3.1
    · intro ht
      rw [h4.1]
      exact h3.2 (by rw [h2.1, h1.1]; exact ht)
  · rw [if_neg hww]
    refine ⟨h3.1, fun ht => h3.2 (by rw [h2.1, h1.1]; exact ht)⟩

theorem tumbleLoop_id_of_triggered (cc : ClusterCfg) (hooks : Hooks)
    (withGrid : Bool) (fuel : ℕ) (s : GState)
    (h : s.wincapTriggered = true) :
    tumbleLoop cc hooks withGrid fuel s = s := by
  cases fuel with
  | zero => rfl
  | succ n =>
    rw [tumbleLoop, if_neg]
    rintro ⟨_, h2⟩
    rw [h] at h2
    exact Bool.noConfusion h2

theorem tumbleLoop_inv (cc : ClusterCfg) (hooks : Hooks) (withGrid : Bool) :
    ∀ (fuel : ℕ) (s : GState), wcInv s →
      wcInv (tumbleLoop cc hooks withGrid fuel s) ∧
      (s.wincapTriggered = true →
        (tumbleLoop cc hooks withGrid fuel s).wincapTriggered = true) := by
  intro fuel
  induction fuel with
  | zero =>
    intro s h
    exact ⟨h, fun ht => ht⟩
  | succ n ih =>
    intro s h
    rw [tumbleLoop]
    by_cases hc : 0 < s.winDataTotal ∧ s.wincapTriggered = false
    · rw [if_pos hc]
      refine ⟨(ih _ (tumbleStep_inv cc hooks withGrid s h).1).1, ?_⟩
      intro ht
      rw [ht] at hc
      exact Bool.noConfusion hc.2
    · rw [if_neg hc]
      exact ⟨h, fun ht => ht⟩

theorem updateFreeSpin_wc (s : GState) (h : wcInv s) :
    wcInv (updateFreeSpin s) ∧
    (s.wincapTriggered = true → (updateFreeSpin s).wincapTriggered = true) := by
  refine ⟨?_, fun ht => ht⟩
  rw [wcInv] at h ⊢
  show wcCount (s.events ++ [Ev.updateFs (s.fs + 1) s.totFs]) =
    if s.wincapTriggered = true then 1 else 0
  rw [wcCount_append, h]
  simp [wcCount]

theorem revealBoard_wc (hooks : Hooks) (s : GState) (h : wcInv s) :
    wcInv (revealBoard hooks s) ∧
    (s.wincapTriggered = true → (revealBoard hooks s).wincapTriggered = true) := by
  refine ⟨?_, fun ht => ht⟩
  rw [wcInv] at h ⊢
  show wcCount (s.events ++
    [Ev.reveal (boardNames (hooks.drawBoard s.gameType s.rng).1)]) =
    if s.wincapTriggered = true then 1 else 0
  rw [wcCount_append, h]
  simp [wcCount]

theorem emitGridEvent_wc (s : GState) (h : wcInv s) :
    wcInv (emitGridEvent s) ∧
    (s.wincapTriggered = true → (emitGridEvent s).wincapTriggered = true) := by
  refine ⟨?_, fun ht => ht⟩
  rw [wcInv] at h ⊢
  show wcCount (s.events ++ [Ev.updateGrid s.positionMultipliers]) =
    if s.wincapTriggered = true then 1 else 0
  rw [wcCount_append, h]
  simp [wcCount]

theorem commitGameTypeWins_wc (s : GState) (h : wcInv s) :
    wcInv (commitGameTypeWins s) ∧
    (s.wincapTriggered = true → (commitGameTypeWins s).wincapTriggered = true) :=
  ⟨h, fun ht => ht⟩

theorem setEndTumbleEvent_wc (cc : ClusterCfg) (s : GState) (h : wcInv s) :
    wcInv (setEndTumbleEvent cc s) ∧
    (s.wincapTriggered = true →
      (setEndTumbleEvent cc s).wincapTriggered = true) := by
  rw [setEndTumbleEvent]
  split_ifs with h1 h2
  · refine ⟨?_, fun ht => ht⟩
    rw [wcInv] at h ⊢
    show wcCount ((s.events ++ _) ++ _) =
      if s.wincapTriggered = true then 1 else 0
    rw [wcCount_append, wcCount_append, h]
    simp [wcCount]
  · refine ⟨?_, fun ht => ht⟩
    rw [wcInv] at h ⊢
    show wcCount (s.events ++ _) = if s.wincapTriggered = true then 1 else 0
    rw [wcCount_append, h]
    simp [wcCount]
  · refine ⟨?_, fun ht => ht⟩
    rw [wcInv] at h ⊢
    show wcCount (s.events ++ _) = if s.wincapTriggered = true then 1 else 0
    rw [wcCount_append, h]
    simp [wcCount]

theorem updateFreeSpinRetrigger_wc (cc : ClusterCfg) (s : GState)
    (h : wcInv s) :
    wcInv (updateFreeSpinRetrigger cc s) ∧
    (s.wincapTriggered = true →
      (updateFreeSpinRetrigger cc s).wincapTriggered = true) := by
  refine ⟨?_, fun ht => ht⟩
  rw [wcInv] at h ⊢
  show wcCount (s.events ++ _) = if s.wincapTriggered = true then 1 else 0
  rw [wcCount_append, h]
  simp [wcCount]

theorem retriggerCheck_wc (cc : ClusterCfg) (s : GState) (h : wcInv s) :
    wcInv (retriggerCheck cc s) ∧
    (s.wincapTriggered = true →
      (retriggerCheck cc s).wincapTriggered = true) := by
  rw [retriggerCheck]
  split_ifs with h1
  · exact updateFreeSpinRetrigger_wc cc s h
  · exact ⟨h, fun ht => ht⟩

theorem freeSpinStep_wc (cc : ClusterCfg) (hooks : Hooks) (tf : ℕ)
    (s : GState) (h : wcInv s) :
    wcInv (freeSpinStep cc hooks tf s) ∧
    (s.wincapTriggered = true →
      (freeSpinStep cc hooks tf s).wincapTriggered = true) := by
  have a1 := updateFreeSpin_wc s h
  have a2 := revealBoard_wc hooks _ a1.1
  have a3 := emitGridEvent_wc _ a2.1
  have a4x := getClustersUpdateWins_pres cc hooks
    (emitGridEvent (revealBoard hooks (updateFreeSpin s)))
  have a4 : wcInv (getClustersUpdateWins cc hooks
      (emitGridEvent (revealBoard hooks (updateFreeSpin s)))) := by
    rw [wcInv, a4x.1, a4x.2]
    exact a3.1
  have a5 := emitTumbleWinEvents_inv cc _ a4
  have a6x := updateGridMultipliers_pres cc
    (emitTumbleWinEvents cc (getClustersUpdateWins cc hooks
      (emitGridEvent (revealBoard hooks (updateFreeSpin s)))))
  have a6 : wcInv (updateGridMultipliers cc
      (emitTumbleWinEvents cc (getClustersUpdateWins cc hooks
        (emitGridEvent (revealBoard hooks (updateFreeSpin s)))))) := by
    rw [wcInv, a6x.1, a6x.2]
    exact a5.1
  have a7 := tumbleLoop_inv cc hooks true tf _ a6
  have a8 := setEndTumbleEvent_wc cc _ a7.1
  have a9 := commitGameTypeWins_wc _ a8.1
  have a10 := retriggerCheck_wc cc _ a9.1
  rw [freeSpinStep]
  refine ⟨a10.1, fun ht => ?_⟩
  exact a10.2 (a9.2 (a8.2 (a7.2 (a6x.1.trans (a5.2
    (a4x.1.trans (a3.2 (a2.2 (a1.2 ht)))))))))

theorem freeSpinLoop_wc (cc : ClusterCfg) (hooks : Hooks) (tf : ℕ) :
    ∀ (fuel : ℕ) (s : GState), wcInv s →
      wcInv (freeSpinLoop cc hooks tf fuel s) ∧
      (s.wincapTriggered = true →
        (freeSpinLoop cc hooks tf fuel s).wincapTriggered = true) := by
  intro fuel
  induction fuel with
  | zero =>
    intro s h
    exact ⟨h, fun ht => ht⟩
  | succ n ih =>
    intro s h
    rw [freeSpinLoop]
    by_cases hc : s.fs < s.totFs
    · rw [if_pos hc]
      have hs := freeSpinStep_wc cc hooks tf s h
      have hl := ih _ hs.1
      exact ⟨hl.1, fun ht => hl.2 (hs.2 ht)⟩
    · rw [if_neg hc]
      exact ⟨h, fun ht => ht⟩

theorem resetFreeSpin_wc (cc : ClusterCfg) (s : GState) (h : wcInv s) :
    wcInv (resetFreeSpin cc s) ∧
    (s.wincapTriggered = true →
      (resetFreeSpin cc s).wincapTriggered = true) :=
  ⟨h, fun ht => ht⟩

theorem endFreeSpin_wc (cc : ClusterCfg) (s : GState) (h : wcInv s) :
    wcInv (endFreeSpin cc s) ∧
    (s.wincapTriggered = true → (endFreeSpin cc s).wincapTriggered = true) := by
  refine ⟨?_, fun ht => ht⟩
  rw [wcInv] at h ⊢
  show wcCount (s.events ++ _) = if s.wincapTriggered = true then 1 else 0
  rw [wcCount_append, h]
  simp [wcCount]

theorem runFreeSpin_wc (cc : ClusterCfg) (hooks : Hooks) (tf ff : ℕ)
    (s : GState) (h : wcInv s) :
    wcInv (runFreeSpin cc hooks tf ff s) ∧
    (s.wincapTriggered = true →
      (runFreeSpin cc hooks tf ff s).wincapTriggered = true) := by
  have a1 := resetFreeSpin_wc cc s h
  have a2 := freeSpinLoop_wc cc hooks tf ff _ a1.1
  have a3 := endFreeSpin_wc cc _ a2.1
  rw [runFreeSpin]
  exact ⟨a3.1, fun ht => a3.2 (a2.2 (a1.2 ht))⟩

theorem updateFreeSpinAmount_wc (cc : ClusterCfg) (s : GState) (h : wcInv s) :
    wcInv (updateFreeSpinAmount cc s) ∧
    (s.wincapTriggered = true →
      (updateFreeSpinAmount cc s).wincapTriggered = true) := by
  refine ⟨?_, fun ht => ht⟩
  rw [wcInv] at h ⊢
  show wcCount (s.events ++ _) = if s.wincapTriggered = true then 1 else 0
  rw [wcCount_append, h]
  simp [wcCount]

theorem checkFreeSpinEntry_snd_wc (cc : ClusterCfg) (s : GState)
    (h : wcInv s) :
    wcInv (checkFreeSpinEntry cc s).2 ∧
    (s.wincapTriggered = true →
      (checkFreeSpinEntry cc s).2.wincapTriggered = true) := by
  rw [checkFreeSpinEntry]
  split_ifs with h1
  · exact ⟨h, fun ht => ht⟩
  · exact ⟨h, fun ht => ht⟩

theorem freeSpinPhase_wc (cc : ClusterCfg) (hooks : Hooks) (tf ff : ℕ)
    (s : GState) (h : wcInv s) :
    wcInv (freeSpinPhase cc hooks tf ff s) ∧
    (s.wincapTriggered = true →
      (freeSpinPhase cc hooks tf ff s).wincapTriggered = true) := by
  rw [freeSpinPhase]
  by_cases h1 : checkFreeSpinCondition cc s = true
  · rw [if_pos h1]
    show wcInv (if (checkFreeSpinEntry cc s).1 then
        runFreeSpin cc hooks tf ff
          (updateFreeSpinAmount cc (checkFreeSpinEntry cc s).2)
      else (checkFreeSpinEntry cc s).2) ∧ _
    have b1 := checkFreeSpinEntry_snd_wc cc s h
    by_cases h2 : (checkFreeSpinEntry cc s).1 = true
    · rw [if_pos h2]
      have b2 := updateFreeSpinAmount_wc cc _ b1.1
      have b3 := runFreeSpin_wc cc hooks tf ff _ b2.1
      exact ⟨b3.1, fun ht => b3.2 (b2.2 (b1.2 ht))⟩
    · rw [if_neg h2]
      exact b1
  · rw [if_neg h1]
    exact ⟨h, fun ht => ht⟩

theorem evaluateFinalWin_wc (cc : ClusterCfg) (s : GState) (h : wcInv s) :
    wcInv (evaluateFinalWin cc s) ∧
    (s.wincapTriggered = true →
      (evaluateFinalWin cc s).wincapTriggered = true) := by
  refine ⟨?_, fun ht => ht⟩
  rw [wcInv] at h ⊢
  show wcCount (s.events ++ _) = if s.wincapTriggered = true then 1 else 0
  rw [wcCount_append, h]
  simp [wcCount]

theorem checkRepeat_wc (cc : ClusterCfg) (s : GState) (h : wcInv s) :
    wcInv (checkRepeat cc s) ∧
    (s.wincapTriggered = true → (checkRepeat cc s).wincapTriggered = true) := by
  simp only [checkRepeat]
  split_ifs <;> exact ⟨h, fun ht => ht⟩

theorem baseSpinBody_wc (cc : ClusterCfg) (hooks : Hooks) (tf ff : ℕ)
    (s : GState) (h : wcInv s) :
    wcInv (baseSpinBody cc hooks tf ff s) ∧
    (s.wincapTriggered = true →
      (baseSpinBody cc hooks tf ff s).wincapTriggered = true) := by
  have a1 := revealBoard_wc hooks s h
  have a2x := getClustersUpdateWins_pres cc hooks (revealBoard hooks s)
  have a2 : wcInv (getClustersUpdateWins cc hooks (revealBoard hooks s)) := by
    rw [wcInv, a2x.1, a2x.2]
    exact a1.1
  have a3 := emitTumbleWinEvents_inv cc _ a2
  have a4 := tumbleLoop_inv cc hooks false tf _ a3.1
  have a5 := setEndTumbleEvent_wc cc _ a4.1
  have a6 := commitGameTypeWins_wc _ a5.1
  have a7 := freeSpinPhase_wc cc hooks tf ff _ a6.1
  have a8 := evaluateFinalWin_wc cc _ a7.1
  have a9 := checkRepeat_wc cc _ a8.1
  rw [baseSpinBody]
  refine ⟨a9.1, fun ht => ?_⟩
  exact a9.2 (a8.2 (a7.2 (a6.2 (a5.2 (a4.2 (a3.2
    (a2x.1.trans (a1.2 ht))))))))

theorem resetBook_wcInv (cc : ClusterCfg) (s : GState) :
    wcInv (resetBook cc s) := rfl

theorem baseSpinOnce_wcInv (cc : ClusterCfg) (hooks : Hooks) (tf ff : ℕ)
    (s : GState) : wcInv (baseSpinOnce cc hooks tf ff s) := by
  rw [baseSpinOnce]
  exact (baseSpinBody_wc cc hooks tf ff _ (resetBook_wcInv cc s)).1

/-- A 1-reel, 2-row cluster game: `(2, "H1")` pays 5, cap 10, no scatter
entry, no retriggers, no win criteria. -/
def cfgC2 : Config := ⟨1, [2], [((2, "H1"), 5)], [("scatter", ["S"])], [], false, 10⟩

def ccC2 : ClusterCfg := ⟨cfgC2, fun _ _ => 0, fun _ => 99, 5, false, none, "0"⟩

def symC2 : Symbol := ⟨"H1", []⟩

def boardC2 : List (List Symbol) := [[symC2, symC2]]

/-- Deterministic hooks: every draw shows the H1 pair, every tumble
leaves the board as is, and the pair is always one 2-cluster. -/
def hooksC2 : Hooks :=
  ⟨fun _ rng => (boardC2, rng + 1),
   fun _ => [("H1", [[(0, 0), (0, 1)]])],
   fun b rng => (b, rng)⟩

def wmC2 : WinMgr := ⟨0, 0, 0, 12, 0, 12, 12, 12⟩

/-- A mid-round free-game state in which the cap has already been hit:
`running_bet_win = 12 ≥ 10 = win_cap`, flag set, cap event booked, one
free spin still owed (`fs = 0 < 1 = tot_fs`). -/
def stC2 : GState :=
  ⟨wmC2, boardC2, 0, [], [Ev.winCap 10], 1, 0, 0, 0, 0, 1, 0, true, true,
    GType.freeGame, false, [[0, 0]], 7, 0⟩

/-- The exploded H1 cell. -/
def symC2e : Symbol := ⟨"H1", [("explode", AttrVal.b true)]⟩

def boardC2e : List (List Symbol) := [[symC2e, symC2e]]

/-- C2: within a round, the win-cap flag is set at most once and the book
holds the cap event exactly once when it is set (`wcInv` after every full
`run_spin` body); once set, the flag is permanent and the tumble loop
stops immediately — but the free-spin loop condition `fs < tot_fs` keeps
iterating (the claim's "no subsequent free-spin loop iteration increases
running_round_win" is refuted separately). -/
theorem wincap_once_flag_permanent (cc : ClusterCfg) (hooks : Hooks)
    (tf ff : ℕ) (s t : GState) :
    wcCount (baseSpinOnce cc hooks tf ff s).events =
      (if (baseSpinOnce cc hooks tf ff s).wincapTriggered = true then 1 else 0) ∧
    (∀ withGrid fuel, t.wincapTriggered = true →
      tumbleLoop cc hooks withGrid fuel t = t) ∧
    (∀ fuel, wcInv t → t.wincapTriggered = true →
      (freeSpinLoop cc hooks tf fuel t).wincapTriggered = true ∧
      wcCount (freeSpinLoop cc hooks tf fuel t).events = 1) := by
  refine ⟨baseSpinOnce_wcInv cc hooks tf ff s, ?_, ?_⟩
  · intro w fuel ht
    exact tumbleLoop_id_of_triggered cc hooks w fuel t ht
  · intro fuel hinv ht
    have h2 := freeSpinLoop_wc cc hooks tf fuel t hinv
    refine ⟨h2.2 ht, ?_⟩
    have h3 := h2.1
    rw [wcInv] at h3
    rw [h3, if_pos (h2.2 ht)]

/-- C2 witness: the concrete capped free-game state satisfies every
hypothesis, the tumble loop is frozen on it, and one more free-spin
iteration keeps the flag and the single cap event. -/
theorem wincap_once_flag_permanent_witness :
    wcCount (baseSpinOnce ccC2 hooksC2 1 1 stC2).events =
      (if (baseSpinOnce ccC2 hooksC2 1 1 stC2).wincapTriggered = true
        then 1 else 0) ∧
    tumbleLoop ccC2 hooksC2 false 3 stC2 = stC2 ∧
    ((freeSpinLoop ccC2 hooksC2 1 1 stC2).wincapTriggered = true ∧
      wcCount (freeSpinLoop ccC2 hooksC2 1 1 stC2).events = 1) := by
  have h := wincap_once_flag_permanent ccC2 hooksC2 1 1 stC2 stC2
  exact ⟨h.1, h.2.1 false 3 rfl, h.2.2 1 rfl rfl⟩

/-- C2 counterexample: with the cap already hit (`running_bet_win = 12 ≥
10 = win_cap`, flag set) and one free spin owed, the free-spin loop of
`run_free_spin` still runs the spin and raises `running_bet_win` to 17 —
the claimed "no subsequent free-spin loop iteration increases
running_round_win" fails in `template_cluster`. -/
theorem wincap_freespin_accumulation_counterexample :
    stC2.wincapTriggered = true ∧
    stC2.fs < stC2.totFs ∧
    stC2.winManager.runningBetWin = 12 ∧
    (freeSpinLoop ccC2 hooksC2 1 1 stC2).winManager.runningBetWin = 17 ∧
    ¬ ((freeSpinLoop ccC2 hooksC2 1 1 stC2).winManager.runningBetWin ≤
      stC2.winManager.runningBetWin) := by
  have h1 : updateFreeSpin stC2 =
      ⟨⟨0, 0, 0, 12, 0, 12, 0, 12⟩, boardC2, 0, [],
        [Ev.winCap 10, Ev.updateFs 1 1], 1, 0, 0, 0, 0, 1, 1, true, true,
        GType.freeGame, false, [[0, 0]], 7, 0⟩ := by rfl
  have h2 : revealBoard hooksC2
      ⟨⟨0, 0, 0, 12, 0, 12, 0, 12⟩, boardC2, 0, [],
        [Ev.winCap 10, Ev.updateFs 1 1], 1, 0, 0, 0, 0, 1, 1, true, true,
        GType.freeGame, false, [[0, 0]], 7, 0⟩ =
      ⟨⟨0, 0, 0, 12, 0, 12, 0, 12⟩, boardC2, 0, [],
        [Ev.winCap 10, Ev.updateFs 1 1, Ev.reveal [["H1", "H1"]]],
        1, 0, 0, 0, 0, 1, 1, true, true,
        GType.freeGame, false, [[0, 0]], 8, 0⟩ := by rfl
  have h3 : emitGridEvent
      ⟨⟨0, 0, 0, 12, 0, 12, 0, 12⟩, boardC2, 0, [],
        [Ev.winCap 10, Ev.updateFs 1 1, Ev.reveal [["H1", "H1"]]],
        1, 0, 0, 0, 0, 1, 1, true, true,
        GType.freeGame, false, [[0, 0]], 8, 0⟩ =
      ⟨⟨0, 0, 0, 12, 0, 12, 0, 12⟩, boardC2, 0, [],
        [Ev.winCap 10, Ev.updateFs 1 1, Ev.reveal [["H1", "H1"]],
          Ev.updateGrid [[0, 0]]],
        1, 0, 0, 0, 0, 1, 1, true, true,
        GType.freeGame, false, [[0, 0]], 8, 0⟩ := by rfl
  have h4 : getClustersUpdateWins ccC2 hooksC2
      ⟨⟨0, 0, 0, 12, 0, 12, 0, 12⟩, boardC2, 0, [],
        [Ev.winCap 10, Ev.updateFs 1 1, Ev.reveal [["H1", "H1"]],
          Ev.updateGrid [[0, 0]]],
        1, 0, 0, 0, 0, 1, 1, true, true,
        GType.freeGame, false, [[0, 0]], 8, 0⟩ =
      ⟨⟨0, 0, 0, 17, 0, 12, 5, 5⟩, boardC2e, 5, [[(0, 0), (0, 1)]],
        [Ev.winCap 10, Ev.updateFs 1 1, Ev.reveal [["H1", "H1"]],
          Ev.updateGrid [[0, 0]]],
        1, 0, 0, 0, 0, 1, 1, true, true,
        GType.freeGame, false, [[0, 0]], 8, 0⟩ := by
    norm_num [getClustersUpdateWins, evalClustersGo, clusterPairs,
      paytableLookup, markExplode, cellAt, assignAttribute, setAttr,
      updateSpinWin, resetSpinWin, ccC2, cfgC2, boardC2, symC2, boardC2e,
      symC2e, hooksC2, GState.mk.injEq, WinMgr.mk.injEq, List.lookup]
  have h5 : emitTumbleWinEvents ccC2
      ⟨⟨0, 0, 0, 17, 0, 12, 5, 5⟩, boardC2e, 5, [[(0, 0), (0, 1)]],
        [Ev.winCap 10, Ev.updateFs 1 1, Ev.reveal [["H1", "H1"]],
          Ev.updateGrid [[0, 0]]],
        1, 0, 0, 0, 0, 1, 1, true, true,
        GType.freeGame, false, [[0, 0]], 8, 0⟩ =
      ⟨⟨0, 0, 0, 17, 0, 12, 5, 5⟩, boardC2e, 5, [[(0, 0), (0, 1)]],
        [Ev.winCap 10, Ev.updateFs 1 1, Ev.reveal [["H1", "H1"]],
          Ev.updateGrid [[0, 0]], Ev.winInfo 5, Ev.updateTumbleWin 5],
        1, 0, 0, 0, 0, 1, 1, true, true,
        GType.freeGame, false, [[0, 0]], 8, 0⟩ := by
    norm_num [emitTumbleWinEvents, evaluateWincap, ccC2, cfgC2,
      GState.mk.injEq]
  have h6 : updateGridMultipliers ccC2
      ⟨⟨0, 0, 0, 17, 0, 12, 5, 5⟩, boardC2e, 5, [[(0, 0), (0, 1)]],
        [Ev.winCap 10, Ev.updateFs 1 1, Ev.reveal [["H1", "H1"]],
          Ev.updateGrid [[0, 0]], Ev.winInfo 5, Ev.updateTumbleWin 5],
        1, 0, 0, 0, 0, 1, 1, true, true,
        GType.freeGame, false, [[0, 0]], 8, 0⟩ =
      ⟨⟨0, 0, 0, 17, 0, 12, 5, 5⟩, boardC2e, 5, [[(0, 0), (0, 1)]],
        [Ev.winCap 10, Ev.updateFs 1 1, Ev.reveal [["H1", "H1"]],
          Ev.updateGrid [[0, 0]], Ev.winInfo 5, Ev.updateTumbleWin 5,
          Ev.updateGrid [[1, 1]]],
        1, 0, 0, 0, 0, 1, 1, true, true,
        GType.freeGame, false, [[1, 1]], 8, 0⟩ := by
    norm_num [updateGridMultipliers, bumpGrid, ccC2, GState.mk.injEq]
  have h7 : tumbleLoop ccC2 hooksC2 true 1
      ⟨⟨0, 0, 0, 17, 0, 12, 5, 5⟩, boardC2e, 5, [[(0, 0), (0, 1)]],
        [Ev.winCap 10, Ev.updateFs 1 1, Ev.reveal [["H1", "H1"]],
          Ev.updateGrid [[0, 0]], Ev.winInfo 5, Ev.updateTumbleWin 5,
          Ev.updateGrid [[1, 1]]],
        1, 0, 0, 0, 0, 1, 1, true, true,
        GType.freeGame, false, [[1, 1]], 8, 0⟩ =
      ⟨⟨0, 0, 0, 17, 0, 12, 5, 5⟩, boardC2e, 5, [[(0, 0), (0, 1)]],
        [Ev.winCap 10, Ev.updateFs 1 1, Ev.reveal [["H1", "H1"]],
          Ev.updateGrid [[0, 0]], Ev.winInfo 5, Ev.updateTumbleWin 5,
          Ev.updateGrid [[1, 1]]],
        1, 0, 0, 0, 0, 1, 1, true, true,
        GType.freeGame, false, [[1, 1]], 8, 0⟩ :=
    tumbleLoop_id_of_triggered ccC2 hooksC2 true 1 _ rfl
  have h8 : setEndTumbleEvent ccC2
      ⟨⟨0, 0, 0, 17, 0, 12, 5, 5⟩, boardC2e, 5, [[(0, 0), (0, 1)]],
        [Ev.winCap 10, Ev.updateFs 1 1, Ev.reveal [["H1", "H1"]],
          Ev.updateGrid [[0, 0]], Ev.winInfo 5, Ev.updateTumbleWin 5,
          Ev.updateGrid [[1, 1]]],
        1, 0, 0, 0, 0, 1, 1, true, true,
        GType.freeGame, false, [[1, 1]], 8, 0⟩ =
      ⟨⟨0, 0, 0, 17, 0, 12, 5, 5⟩, boardC2e, 5, [[(0, 0), (0, 1)]],
        [Ev.winCap 10, Ev.updateFs 1 1, Ev.reveal [["H1", "H1"]],
          Ev.updateGrid [[0, 0]], Ev.winInfo 5, Ev.updateTumbleWin 5,
          Ev.updateGrid [[1, 1]], Ev.setTotalWin 10],
        1, 0, 0, 0, 0, 1, 1, true, true,
        GType.freeGame, false, [[1, 1]], 8, 0⟩ := by
    norm_num [setEndTumbleEvent, ccC2, cfgC2, GState.mk.injEq]
  have h9 : commitGameTypeWins
      ⟨⟨0, 0, 0, 17, 0, 12, 5, 5⟩, boardC2e, 5, [[(0, 0), (0, 1)]],
        [Ev.winCap 10, Ev.updateFs 1 1, Ev.reveal [["H1", "H1"]],
          Ev.updateGrid [[0, 0]], Ev.winInfo 5, Ev.updateTumbleWin 5,
          Ev.updateGrid [[1, 1]], Ev.setTotalWin 10],
        1, 0, 0, 0, 0, 1, 1, true, true,
        GType.freeGame, false, [[1, 1]], 8, 0⟩ =
      ⟨⟨0, 0, 0, 17, 0, 17, 5, 5⟩, boardC2e, 5, [[(0, 0), (0, 1)]],
        [Ev.winCap 10, Ev.updateFs 1 1, Ev.reveal [["H1", "H1"]],
          Ev.updateGrid [[0, 0]], Ev.winInfo 5, Ev.updateTumbleWin 5,
          Ev.updateGrid [[1, 1]], Ev.setTotalWin 10],
        1, 0, 0, 0, 0, 1, 1, true, true,
        GType.freeGame, false, [[1, 1]], 8, 0⟩ := by
    norm_num [commitGameTypeWins, updateGameTypeWins, GState.mk.injEq,
      WinMgr.mk.injEq]
  have h10 : retriggerCheck ccC2
      ⟨⟨0, 0, 0, 17, 0, 17, 5, 5⟩, boardC2e, 5, [[(0, 0), (0, 1)]],
        [Ev.winCap 10, Ev.updateFs 1 1, Ev.reveal [["H1", "H1"]],
          Ev.updateGrid [[0, 0]], Ev.winInfo 5, Ev.updateTumbleWin 5,
          Ev.updateGrid [[1, 1]], Ev.setTotalWin 10],
        1, 0, 0, 0, 0, 1, 1, true, true,
        GType.freeGame, false, [[1, 1]], 8, 0⟩ =
      ⟨⟨0, 0, 0, 17, 0, 17, 5, 5⟩, boardC2e, 5, [[(0, 0), (0, 1)]],
        [Ev.winCap 10, Ev.updateFs 1 1, Ev.reveal [["H1", "H1"]],
          Ev.updateGrid [[0, 0]], Ev.winInfo 5, Ev.updateTumbleWin 5,
          Ev.updateGrid [[1, 1]], Ev.setTotalWin 10],
        1, 0, 0, 0, 0, 1, 1, true, true,
        GType.freeGame, false, [[1, 1]], 8, 0⟩ := by
    rw [retriggerCheck, if_neg]
    intro hcond
    exact Bool.noConfusion ((by decide :
      checkFreeSpinCondition ccC2
        ⟨⟨0, 0, 0, 17, 0, 17, 5, 5⟩, boardC2e, 5, [[(0, 0), (0, 1)]],
          [Ev.winCap 10, Ev.updateFs 1 1, Ev.reveal [["H1", "H1"]],
            Ev.updateGrid [[0, 0]], Ev.winInfo 5, Ev.updateTumbleWin 5,
            Ev.updateGrid [[1, 1]], Ev.setTotalWin 10],
          1, 0, 0, 0, 0, 1, 1, true, true,
          GType.freeGame, false, [[1, 1]], 8, 0⟩ = false).symm.trans hcond)
  have hstep : freeSpinStep ccC2 hooksC2 1 stC2 =
      ⟨⟨0, 0, 0, 17, 0, 17, 5, 5⟩, boardC2e, 5, [[(0, 0), (0, 1)]],
        [Ev.winCap 10, Ev.updateFs 1 1, Ev.reveal [["H1", "H1"]],
          Ev.updateGrid [[0, 0]], Ev.winInfo 5, Ev.updateTumbleWin 5,
          Ev.updateGrid [[1, 1]], Ev.setTotalWin 10],
        1, 0, 0, 0, 0, 1, 1, true, true,
        GType.freeGame, false, [[1, 1]], 8, 0⟩ := by
    rw [freeSpinStep, h1, h2, h3, h4, h5, h6, h7, h8, h9, h10]
  have hloop : freeSpinLoop ccC2 hooksC2 1 1 stC2 =
      freeSpinStep ccC2 hooksC2 1 stC2 := by
    show (if stC2.fs < stC2.totFs then
        freeSpinLoop ccC2 hooksC2 1 0 (freeSpinStep ccC2 hooksC2 1 stC2)
      else stC2) = freeSpinStep ccC2 hooksC2 1 stC2
    rw [if_pos (by decide)]
    rfl
  rw [hloop, hstep]
  refine ⟨rfl, by decide, rfl, rfl, ?_⟩
  rw [show stC2.winManager.runningBetWin = 12 from rfl]
  norm_num

/-- A 1-reel, 2-row cluster game with cap 100, used for the determinism
analysis of `run_spin`. -/
def cfgC8 : Config := ⟨1, [2], [((2, "H1"), 5)], [("scatter", ["S"])], [], false, 100⟩

def ccC8 : ClusterCfg := ⟨cfgC8, fun _ _ => 0, fun _ => 99, 5, false, none, "0"⟩

def symX8 : Symbol := ⟨"X", []⟩

/-- The dead board every tumble produces. -/
def boardX8 : List (List Symbol) := [[symX8, symX8]]

/-- Deterministic hooks: every draw shows the H1 pair, the H1 pair is one
2-cluster, every tumble replaces the board with dead symbols. -/
def hooksC8 : Hooks :=
  ⟨fun _ rng => (boardC2, rng + 1),
   fun b => if boardNames b = [["H1", "H1"]] then [("H1", [[(0, 0), (0, 1)]])]
     else [],
   fun _ rng => (boardX8, rng)⟩

/-- A fresh state between rounds whose grid is clear. -/
def st8a : GState :=
  ⟨⟨0, 0, 0, 0, 0, 0, 0, 0⟩, [], 0, [], [], 1, 0, 0, 0, 0, 0, 0, false,
    false, GType.base, false, [[0, 0]], 0, 0⟩

theorem resetBook_resetSeed_eq (cc : ClusterCfg) (sim : ℕ) (s1 s2 : GState)
    (hpm : s1.positionMultipliers = s2.positionMultipliers)
    (h1 : s1.winManager.totalCumulativeWins = s2.winManager.totalCumulativeWins)
    (h2 : s1.winManager.cumulativeBaseWins = s2.winManager.cumulativeBaseWins)
    (h3 : s1.winManager.cumulativeFreeWins = s2.winManager.cumulativeFreeWins) :
    resetBook cc (resetSeed sim s1) = resetBook cc (resetSeed sim s2) := by
  simp [resetBook, resetSeed, resetEndRoundWins, GState.mk.injEq,
    WinMgr.mk.injEq, hpm, h1, h2, h3]

/-- C8 (amended): `run_spin` is deterministic in `(simulation_index,
config)` ONLY relative to the state that `reset_book` does not clear:
two runs with the same simulation index, configuration and hooks produce
the same book and end state provided `position_multipliers` and the
cumulative win-manager tallies agree beforehand (unconditional two-run
determinism is refuted separately: `reset_book` leaves
`position_multipliers` behind). -/
theorem run_spin_deterministic_given_carryover (cc : ClusterCfg)
    (hooks : Hooks) (tf ff rf sim : ℕ) (s1 s2 : GState)
    (hpm : s1.positionMultipliers = s2.positionMultipliers)
    (h1 : s1.winManager.totalCumulativeWins = s2.winManager.totalCumulativeWins)
    (h2 : s1.winManager.cumulativeBaseWins = s2.winManager.cumulativeBaseWins)
    (h3 : s1.winManager.cumulativeFreeWins = s2.winManager.cumulativeFreeWins) :
    runSpinBook cc hooks tf ff rf sim s1 = runSpinBook cc hooks tf ff rf sim s2 := by
  have key := resetBook_resetSeed_eq cc sim s1 s2 hpm h1 h2 h3
  simp only [runSpinBook, runSpinState, baseSpinOnce]
  rw [key]

/-- C8 witness: two runs from states equal in the carried-over fields
(but differing in a round-local field) give identical books. -/
theorem run_spin_deterministic_given_carryover_witness :
    runSpinBook ccC8 hooksC8 2 0 0 0 st8a =
      runSpinBook ccC8 hooksC8 2 0 0 0 { st8a with finalWin := 7 } :=
  run_spin_deterministic_given_carryover ccC8 hooksC8 2 0 0 0 st8a
    { st8a with finalWin := 7 } rfl rfl rfl rfl

def st8R0a : GState :=
  ⟨⟨0, 0, 0, 0, 0, 0, 0, 0⟩, [[]], 0, [], [], 1, 0, 0, 0, 0, 0, 0, false,
    false, GType.base, false, [[0, 0]], 1, 0⟩

def st8A1 : GState :=
  ⟨⟨0, 0, 0, 0, 0, 0, 0, 0⟩, boardC2, 0, [], [Ev.reveal [["H1", "H1"]]],
    1, 0, 0, 0, 0, 0, 0, false, false, GType.base, false, [[0, 0]], 2, 0⟩

def st8A2 : GState :=
  ⟨⟨0, 0, 0, 5, 0, 0, 5, 5⟩, boardC2e, 5, [[(0, 0), (0, 1)]],
    [Ev.reveal [["H1", "H1"]]],
    1, 0, 0, 0, 0, 0, 0, false, false, GType.base, false, [[0, 0]], 2, 0⟩

def st8A3 : GState :=
  ⟨⟨0, 0, 0, 5, 0, 0, 5, 5⟩, boardC2e, 5, [[(0, 0), (0, 1)]],
    [Ev.reveal [["H1", "H1"]], Ev.winInfo 5, Ev.updateTumbleWin 5],
    1, 0, 0, 0, 0, 0, 0, false, false, GType.base, false, [[0, 0]], 2, 0⟩

def st8T1a : GState :=
  ⟨⟨0, 0, 0, 5, 0, 0, 5, 5⟩, boardX8, 5, [[(0, 0), (0, 1)]],
    [Ev.reveal [["H1", "H1"]], Ev.winInfo 5, Ev.updateTumbleWin 5,
      Ev.tumbleBoard],
    1, 0, 0, 0, 0, 0, 0, false, false, GType.base, false, [[0, 0]], 2, 0⟩

def st8T2a : GState :=
  ⟨⟨0, 0, 0, 5, 0, 0, 5, 0⟩, boardX8, 0, [],
    [Ev.reveal [["H1", "H1"]], Ev.winInfo 5, Ev.updateTumbleWin 5,
      Ev.tumbleBoard],
    1, 0, 0, 0, 0, 0, 0, false, false, GType.base, false, [[0, 0]], 2, 0⟩

def st8A5 : GState :=
  ⟨⟨0, 0, 0, 5, 0, 0, 5, 0⟩, boardX8, 0, [],
    [Ev.reveal [["H1", "H1"]], Ev.winInfo 5, Ev.updateTumbleWin 5,
      Ev.tumbleBoard, Ev.setWin 5, Ev.setTotalWin 5],
    1, 0, 0, 0, 0, 0, 0, false, false, GType.base, false, [[0, 0]], 2, 0⟩

def st8A6 : GState :=
  ⟨⟨0, 0, 0, 5, 5, 0, 5, 0⟩, boardX8, 0, [],
    [Ev.reveal [["H1", "H1"]], Ev.winInfo 5, Ev.updateTumbleWin 5,
      Ev.tumbleBoard, Ev.setWin 5, Ev.setTotalWin 5],
    1, 0, 0, 0, 0, 0, 0, false, false, GType.base, false, [[0, 0]], 2, 0⟩

def st8A8 : GState :=
  ⟨⟨0, 0, 0, 5, 5, 0, 5, 0⟩, boardX8, 0, [],
    [Ev.reveal [["H1", "H1"]], Ev.winInfo 5, Ev.updateTumbleWin 5,
      Ev.tumbleBoard, Ev.setWin 5, Ev.setTotalWin 5, Ev.setFinalWin 5],
    1, 5, 5, 5, 0, 0, 0, false, false, GType.base, false, [[0, 0]], 2, 0⟩

def st8R0b : GState :=
  ⟨⟨0, 0, 0, 0, 0, 0, 0, 0⟩, [[]], 0, [], [], 1, 0, 0, 0, 0, 0, 0, false,
    false, GType.base, false, [[3, 0]], 1, 0⟩

def st8B1 : GState :=
  ⟨⟨0, 0, 0, 0, 0, 0, 0, 0⟩, boardC2, 0, [], [Ev.reveal [["H1", "H1"]]],
    1, 0, 0, 0, 0, 0, 0, false, false, GType.base, false, [[3, 0]], 2, 0⟩

def st8B2 : GState :=
  ⟨⟨0, 0, 0, 15, 0, 0, 15, 15⟩, boardC2e, 15, [[(0, 0), (0, 1)]],
    [Ev.reveal [["H1", "H1"]]],
    1, 0, 0, 0, 0, 0, 0, false, false, GType.base, false, [[3, 0]], 2, 0⟩

def st8B3 : GState :=
  ⟨⟨0, 0, 0, 15, 0, 0, 15, 15⟩, boardC2e, 15, [[(0, 0), (0, 1)]],
    [Ev.reveal [["H1", "H1"]], Ev.winInfo 15, Ev.updateTumbleWin 15],
    1, 0, 0, 0, 0, 0, 0, false, false, GType.base, false, [[3, 0]], 2, 0⟩

def st8T1b : GState :=
  ⟨⟨0, 0, 0, 15, 0, 0, 15, 15⟩, boardX8, 15, [[(0, 0), (0, 1)]],
    [Ev.reveal [["H1", "H1"]], Ev.winInfo 15, Ev.updateTumbleWin 15,
      Ev.tumbleBoard],
    1, 0, 0, 0, 0, 0, 0, false, false, GType.base, false, [[3, 0]], 2, 0⟩

def st8T2b : GState :=
  ⟨⟨0, 0, 0, 15, 0, 0, 15, 0⟩, boardX8, 0, [],
    [Ev.reveal [["H1", "H1"]], Ev.winInfo 15, Ev.updateTumbleWin 15,
      Ev.tumbleBoard],
    1, 0, 0, 0, 0, 0, 0, false, false, GType.base, false, [[3, 0]], 2, 0⟩

def st8B5 : GState :=
  ⟨⟨0, 0, 0, 15, 0, 0, 15, 0⟩, boardX8, 0, [],
    [Ev.reveal [["H1", "H1"]], Ev.winInfo 15, Ev.updateTumbleWin 15,
      Ev.tumbleBoard, Ev.setWin 15, Ev.setTotalWin 15],
    1, 0, 0, 0, 0, 0, 0, false, false, GType.base, false, [[3, 0]], 2, 0⟩

def st8B6 : GState :=
  ⟨⟨0, 0, 0, 15, 15, 0, 15, 0⟩, boardX8, 0, [],
    [Ev.reveal [["H1", "H1"]], Ev.winInfo 15, Ev.updateTumbleWin 15,
      Ev.tumbleBoard, Ev.setWin 15, Ev.setTotalWin 15],
    1, 0, 0, 0, 0, 0, 0, false, false, GType.base, false, [[3, 0]], 2, 0⟩

def st8B8 : GState :=
  ⟨⟨0, 0, 0, 15, 15, 0, 15, 0⟩, boardX8, 0, [],
    [Ev.reveal [["H1", "H1"]], Ev.winInfo 15, Ev.updateTumbleWin 15,
      Ev.tumbleBoard, Ev.setWin 15, Ev.setTotalWin 15, Ev.setFinalWin 15],
    1, 15, 15, 15, 0, 0, 0, false, false, GType.base, false, [[3, 0]], 2, 0⟩

theorem hooksC8_clusters_live :
    hooksC8.clusters boardC2 = [("H1", [[(0, 0), (0, 1)]])] := by decide

theorem hooksC8_clusters_dead : hooksC8.clusters boardX8 = [] := by decide

/-- C8 counterexample: two runs of `run_spin` with the same simulation
index, configuration and hooks, differing only in the
`position_multipliers` grid carried over from an earlier round (which
`reset_book` never clears), pay 5 and 15 respectively — the claimed
unconditional two-run determinism in `(simulation_index, config)`
fails. -/
theorem run_spin_grid_carryover_counterexample :
    (runSpinBook ccC8 hooksC8 2 0 0 0 st8a).1.payoutMultiplier = 5 ∧
    (runSpinBook ccC8 hooksC8 2 0 0 0
      { st8a with positionMultipliers := [[3, 0]] }).1.payoutMultiplier = 15 ∧
    ((5 : ℚ) ≠ 15) := by
  have hR0a : resetBook ccC8 (resetSeed 0 st8a) = st8R0a := by rfl
  have hA1 : revealBoard hooksC8 st8R0a = st8A1 := by rfl
  have hA2 : getClustersUpdateWins ccC8 hooksC8 st8A1 = st8A2 := by
    norm_num [getClustersUpdateWins, st8A1, st8A2, hooksC8_clusters_live,
      evalClustersGo, clusterPairs, paytableLookup, markExplode, cellAt,
      assignAttribute, setAttr, updateSpinWin, resetSpinWin, ccC8, cfgC8,
      boardC2, symC2, boardC2e, symC2e, GState.mk.injEq, WinMgr.mk.injEq,
      List.lookup]
  have hA3 : emitTumbleWinEvents ccC8 st8A2 = st8A3 := by
    norm_num [emitTumbleWinEvents, evaluateWincap, st8A2, st8A3, ccC8,
      cfgC8, GState.mk.injEq]
  have hT1a : tumbleGameBoard ccC8 hooksC8 st8A3 = st8T1a := by rfl
  have hT2a : getClustersUpdateWins ccC8 hooksC8 st8T1a = st8T2a := by
    norm_num [getClustersUpdateWins, st8T1a, st8T2a, hooksC8_clusters_dead,
      evalClustersGo, clusterPairs, updateSpinWin, resetSpinWin, ccC8,
      GState.mk.injEq, WinMgr.mk.injEq]
  have hT3a : emitTumbleWinEvents ccC8 st8T2a = st8T2a := by
    rw [emitTumbleWinEvents, if_neg]
    rw [show st8T2a.winDataTotal = 0 from rfl]
    norm_num
  have hstepA : tumbleStep ccC8 hooksC8 false st8A3 = st8T2a := by
    show (if (false : Bool) then
        updateGridMultipliers ccC8 (emitTumbleWinEvents ccC8
          (getClustersUpdateWins ccC8 hooksC8
            (tumbleGameBoard ccC8 hooksC8 st8A3)))
      else emitTumbleWinEvents ccC8 (getClustersUpdateWins ccC8 hooksC8
        (tumbleGameBoard ccC8 hooksC8 st8A3))) = st8T2a
    rw [if_neg (by decide), hT1a, hT2a, hT3a]
  have hloopA : tumbleLoop ccC8 hooksC8 false 2 st8A3 = st8T2a := by
    show (if 0 < st8A3.winDataTotal ∧ st8A3.wincapTriggered = false then
        tumbleLoop ccC8 hooksC8 false 1 (tumbleStep ccC8 hooksC8 false st8A3)
      else st8A3) = st8T2a
    rw [if_pos ⟨by rw [show st8A3.winDataTotal = 5 from rfl]; norm_num, rfl⟩,
      hstepA]
    show (if 0 < st8T2a.winDataTotal ∧ st8T2a.wincapTriggered = false then
        tumbleLoop ccC8 hooksC8 false 0 (tumbleStep ccC8 hooksC8 false st8T2a)
      else st8T2a) = st8T2a
    rw [if_neg]
    rintro ⟨hlt, _⟩
    exact lt_irrefl 0 hlt
  have hA5 : setEndTumbleEvent ccC8 st8T2a = st8A5 := by
    norm_num [setEndTumbleEvent, st8T2a, st8A5, ccC8, cfgC8,
      GState.mk.injEq]
  have hA6 : commitGameTypeWins st8A5 = st8A6 := by
    norm_num [commitGameTypeWins, updateGameTypeWins, st8A5, st8A6,
      GState.mk.injEq, WinMgr.mk.injEq]
  have hA7 : freeSpinPhase ccC8 hooksC8 2 0 st8A6 = st8A6 := by
    rw [freeSpinPhase, if_neg]
    intro hcond
    exact Bool.noConfusion
      ((by decide : checkFreeSpinCondition ccC8 st8A6 = false).symm.trans hcond)
  have hA8 : evaluateFinalWin ccC8 st8A6 = st8A8 := by
    norm_num [evaluateFinalWin, updateFinalWinG, round2, rhe, st8A6, st8A8,
      ccC8, cfgC8, GState.mk.injEq]
  have hA9 : checkRepeat ccC8 st8A8 = st8A8 := by rfl
  have hbodyA : baseSpinBody ccC8 hooksC8 2 0 st8R0a = st8A8 := by
    rw [baseSpinBody, hA1, hA2, hA3, hloopA, hA5, hA6, hA7, hA8, hA9]
  have hbookA : (runSpinBook ccC8 hooksC8 2 0 0 0 st8a).1.payoutMultiplier
      = 5 := by
    show (baseSpinBody ccC8 hooksC8 2 0
      (resetBook ccC8 (resetSeed 0 st8a))).payoutMultiplier = 5
    rw [hR0a, hbodyA]
    rfl
  have hR0b : resetBook ccC8
      (resetSeed 0 { st8a with positionMultipliers := [[3, 0]] }) =
      st8R0b := by rfl
  have hB1 : revealBoard hooksC8 st8R0b = st8B1 := by rfl
  have hB2 : getClustersUpdateWins ccC8 hooksC8 st8B1 = st8B2 := by
    norm_num [getClustersUpdateWins, st8B1, st8B2, hooksC8_clusters_live,
      evalClustersGo, clusterPairs, paytableLookup, markExplode, cellAt,
      assignAttribute, setAttr, updateSpinWin, resetSpinWin, ccC8, cfgC8,
      boardC2, symC2, boardC2e, symC2e, GState.mk.injEq, WinMgr.mk.injEq,
      List.lookup]
  have hB3 : emitTumbleWinEvents ccC8 st8B2 = st8B3 := by
    norm_num [emitTumbleWinEvents, evaluateWincap, st8B2, st8B3, ccC8,
      cfgC8, GState.mk.injEq]
  have hT1b : tumbleGameBoard ccC8 hooksC8 st8B3 = st8T1b := by rfl
  have hT2b : getClustersUpdateWins ccC8 hooksC8 st8T1b = st8T2b := by
    norm_num [getClustersUpdateWins, st8T1b, st8T2b, hooksC8_clusters_dead,
      evalClustersGo, clusterPairs, updateSpinWin, resetSpinWin, ccC8,
      GState.mk.injEq, WinMgr.mk.injEq]
  have hT3b : emitTumbleWinEvents ccC8 st8T2b = st8T2b := by
    rw [emitTumbleWinEvents, if_neg]
    rw [show st8T2b.winDataTotal = 0 from rfl]
    norm_num
  have hstepB : tumbleStep ccC8 hooksC8 false st8B3 = st8T2b := by
    show (if (false : Bool) then
        updateGridMultipliers ccC8 (emitTumbleWinEvents ccC8
          (getClustersUpdateWins ccC8 hooksC8
            (tumbleGameBoard ccC8 hooksC8 st8B3)))
      else emitTumbleWinEvents ccC8 (getClustersUpdateWins ccC8 hooksC8
        (tumbleGameBoard ccC8 hooksC8 st8B3))) = st8T2b
    rw [if_neg (by decide), hT1b, hT2b, hT3b]
  have hloopB : tumbleLoop ccC8 hooksC8 false 2 st8B3 = st8T2b := by
    show (if 0 < st8B3.winDataTotal ∧ st8B3.wincapTriggered = false then
        tumbleLoop ccC8 hooksC8 false 1 (tumbleStep ccC8 hooksC8 false st8B3)
      else st8B3) = st8T2b
    rw [if_pos ⟨by rw [show st8B3.winDataTotal = 15 from rfl]; norm_num, rfl⟩,
      hstepB]
    show (if 0 < st8T2b.winDataTotal ∧ st8T2b.wincapTriggered = false then
        tumbleLoop ccC8 hooksC8 false 0 (tumbleStep ccC8 hooksC8 false st8T2b)
      else st8T2b) = st8T2b
    rw [if_neg]
    rintro ⟨hlt, _⟩
    exact lt_irrefl 0 hlt
  have hB5 : setEndTumbleEvent ccC8 st8T2b = st8B5 := by
    norm_num [setEndTumbleEvent, st8T2b, st8B5, ccC8, cfgC8,
      GState.mk.injEq]
  have hB6 : commitGameTypeWins st8B5 = st8B6 := by
    norm_num [commitGameTypeWins, updateGameTypeWins, st8B5, st8B6,
      GState.mk.injEq, WinMgr.mk.injEq]
  have hB7 : freeSpinPhase ccC8 hooksC8 2 0 st8B6 = st8B6 := by
    rw [freeSpinPhase, if_neg]
    intro hcond
    exact Bool.noConfusion
      ((by decide : checkFreeSpinCondition ccC8 st8B6 = false).symm.trans hcond)
  have hB8 : evaluateFinalWin ccC8 st8B6 = st8B8 := by
    norm_num [evaluateFinalWin, updateFinalWinG, round2, rhe, st8B6, st8B8,
      ccC8, cfgC8, GState.mk.injEq]
  have hB9 : checkRepeat ccC8 st8B8 = st8B8 := by rfl
  have hbodyB : baseSpinBody ccC8 hooksC8 2 0 st8R0b = st8B8 := by
    rw [baseSpinBody, hB1, hB2, hB3, hloopB, hB5, hB6, hB7, hB8, hB9]
  have hbookB : (runSpinBook ccC8 hooksC8 2 0 0 0
      { st8a with positionMultipliers := [[3, 0]] }).1.payoutMultiplier
      = 15 := by
    show (baseSpinBody ccC8 hooksC8 2 0 (resetBook ccC8
      (resetSeed 0 { st8a with positionMultipliers := [[3, 0]] }))).payoutMultiplier = 15
    rw [hR0b, hbodyB]
    rfl
  exact ⟨hbookA, hbookB, by norm_num⟩

end StakeEngine
